import Mathlib

/-!
# trillek-client-core: `graphics::Renderable`

A shallow embedding of `src/components/renderable.cpp`.

* The process-wide collaborators (the `ResourceMap` singleton, the OpenGL
  context and the allocator behind `std::make_shared`) are explicit fields of
  `State`, next to the `Renderable` the member functions are called on.
* A `std::shared_ptr` to an object is the object's value together with an
  address (`addr`) that stands for its identity; an empty `shared_ptr` and an
  expired `weak_ptr` are `none`.
* Dereferencing an empty `shared_ptr` does not return: the member functions
  return `Option`, and `none` is that fault.
* OpenGL is observed through the ordered log of the calls issued; every entry
  carries the loop index of the `UpdateBufferGroups` iteration that issued it.
-/

namespace trillek

/-! ## Resources -/

/-- Modelled from the spec: the vertex record `resource::VertexData` is declared in
`resources/mesh.hpp`, which is absent; the spec gives position (vec3), normal (vec3),
color (vec4) and uv (vec2). A float is kept as its raw word. -/
structure VertexData where
  position : Nat × Nat × Nat
  normal : Nat × Nat × Nat
  color : Nat × Nat × Nat × Nat
  uv : Nat × Nat
deriving DecidableEq, Repr

/-- Modelled from the spec: `resource::MeshGroup` is declared in `resources/mesh.hpp`,
which is absent; the spec gives an ordered sequence of vertex records, one of unsigned
32-bit indices and one of texture names, the three members `UpdateBufferGroups` reads. -/
structure MeshGroup where
  verts : List VertexData
  indicies : List Nat
  textures : List String
deriving DecidableEq, Repr

/-- Modelled from the spec: `resource::Mesh` is declared in `resources/mesh.hpp`, which is
absent. The spec gives `GetMeshGroupCount() -> size_t` and `GetMeshGroup(i) -> weak
reference to MeshGroup`, a reference that may have expired. An entry `none` is a
group whose weak reference no longer locks. -/
structure Mesh where
  mesh_groups : List (Option MeshGroup)
deriving DecidableEq, Repr

/-- Number of groups, `Mesh::GetMeshGroupCount`. -/
def Mesh.GetMeshGroupCount (m : Mesh) : Nat := m.mesh_groups.length

/-- The result of `GetMeshGroup(i).lock()`: the live group, or `none`. -/
def Mesh.GetMeshGroup (m : Mesh) (i : Nat) : Option MeshGroup := (m.mesh_groups[i]?).join

/-- Modelled from the spec: `graphics::Shader` is declared in `graphics/shader.hpp`, which
is absent; only `GetProgram()`, the name of its shader program, is used. -/
structure Shader where
  program : Nat
deriving DecidableEq, Repr

/-- Modelled from the spec: `resource::PixelBuffer` is a resource of the registry declared
in an absent header; its pixel data is kept as raw words. -/
structure PixelBuffer where
  data : List Nat
deriving DecidableEq, Repr

/-- Modelled from the spec: `graphics::Texture` is declared in `graphics/texture.hpp`, which
is absent; a shared texture object is its address and the pixel buffer it was built
from. -/
structure Texture where
  addr : Nat
  pixels : PixelBuffer
deriving DecidableEq, Repr

/-- Modelled from the spec: `Property` is declared in an absent header; the spec gives a
property list with string-valued entries, so a property is a name and its value. -/
structure Property where
  name : String
  value : String
deriving DecidableEq, Repr

/-- Modelled from the spec: `resource::ResourceMap` is declared in
`systems/resource-system.hpp`, which is absent. The spec gives
`Get<T>(name) -> optional<shared T>`, `Create<T>(name, properties) -> optional<shared T>`
and `Add<T>(name, shared T)`. The store is one name-keyed table per resource type;
`pixel_files` holds what `Create<PixelBuffer>` can load, keyed by file name. -/
structure ResourceMap where
  meshes : List (String × Mesh)
  shaders : List (String × Shader)
  textures : List (String × Texture)
  pixel_files : List (String × PixelBuffer)
deriving DecidableEq, Repr

/-- Modelled from the spec: the lookup `ResourceMap::Get<resource::Mesh>(name)`. -/
def ResourceMap.GetMesh (r : ResourceMap) (name : String) : Option Mesh := r.meshes.lookup name

/-- Modelled from the spec: the lookup `ResourceMap::Get<graphics::Shader>(name)`. -/
def ResourceMap.GetShader (r : ResourceMap) (name : String) : Option Shader :=
  r.shaders.lookup name

/-- Modelled from the spec: the lookup `ResourceMap::Get<Texture>(name)`. -/
def ResourceMap.GetTexture (r : ResourceMap) (name : String) : Option Texture :=
  r.textures.lookup name

/-- The value of the last property called `key`, if there is one. -/
def Property.find (key : String) (props : List Property) : Option String :=
  props.foldl (fun acc p => if p.name = key then some p.value else acc) none

/-- Modelled from the spec: `ResourceMap::Create<resource::PixelBuffer>(name, props)`
loads the file named by the `"filename"` property and yields nothing when that
fails. -/
def ResourceMap.CreatePixelBuffer (r : ResourceMap) (_name : String) (props : List Property) :
    Option PixelBuffer :=
  match Property.find "filename" props with
  | some file => r.pixel_files.lookup file
  | none => none

/-- Modelled from the spec: the registration `ResourceMap::Add<Texture>(name, texture)`;
a later lookup of `name` finds `texture`. -/
def ResourceMap.AddTexture (r : ResourceMap) (name : String) (t : Texture) : ResourceMap :=
  { r with textures := (name, t) :: r.textures }

/-! ## OpenGL -/

/-- Buffer binding targets used by the component. -/
inductive GLTarget where
  | GL_ARRAY_BUFFER
  | GL_ELEMENT_ARRAY_BUFFER
deriving DecidableEq, Repr

/-- The client memory handed to `glBufferData`. -/
inductive GLData where
  | verts (data : List VertexData)
  | indicies (data : List Nat)
deriving DecidableEq, Repr

/-- The OpenGL entry points `renderable.cpp` calls, with the arguments that vary
(`glBufferData` is always `GL_STATIC_DRAW`, `glVertexAttribPointer` always
`GL_FLOAT`, `GL_FALSE`). -/
inductive GLCall where
  | glGenVertexArrays (out : Nat)
  | glGenBuffers (out : Nat)
  | glBindVertexArray (vao : Nat)
  | glBindBuffer (target : GLTarget) (buffer : Nat)
  | glBufferData (target : GLTarget) (size : Nat) (data : GLData)
  | glGetAttribLocation (program : Nat) (name : String)
  | glVertexAttribPointer (index : Nat) (size : Nat) (stride : Nat) (offset : Nat)
  | glEnableVertexAttribArray (index : Nat)
deriving DecidableEq, Repr

/-- One logged call: the loop index of the iteration that issued it, and the call. -/
structure GLEvent where
  group : Nat
  call : GLCall
deriving DecidableEq, Repr

/-- The OpenGL context as far as the component observes it: the names the next
`glGenVertexArrays` and `glGenBuffers` hand out (each a name not handed out before),
the attribute locations of the linked programs, and the log of calls. -/
structure GLContext where
  next_vertex_array : Nat
  next_buffer : Nat
  attrib_locations : List ((Nat × String) × Nat)
  calls : List GLEvent
deriving DecidableEq, Repr

/-! ## The component -/

/-- Modelled from the spec: `BufferGroup` is declared in `components/renderable.hpp`, which
is absent; the spec gives three handles (vertex array, vertex buffer, index buffer),
an index count and a sequence of shared textures. `addr` is the address of the
object. -/
structure BufferGroup where
  addr : Nat
  vao : Nat
  vbo : Nat
  ibo : Nat
  ibo_count : Nat
  textures : List Texture
deriving DecidableEq, Repr

/-- Modelled from the spec: the members of `Renderable`, declared in
`components/renderable.hpp`, which is absent: an optional mesh, an optional shader and
the ordered buffer groups. -/
structure Renderable where
  mesh : Option Mesh
  shader : Option Shader
  buffer_groups : List BufferGroup
deriving DecidableEq, Repr

/-- The constructor `Renderable::Renderable()`. -/
def Renderable.new : Renderable := { mesh := none, shader := none, buffer_groups := [] }

/-- Everything a member function reads or writes: the resource registry, the OpenGL
context, the next address `std::make_shared` hands out, and `*this`. -/
structure State where
  registry : ResourceMap
  gl : GLContext
  heap_next : Nat
  self : Renderable
deriving DecidableEq, Repr

/-- Record one OpenGL call issued by iteration `i`. -/
def State.glCall (i : Nat) (c : GLCall) (s : State) : State :=
  { s with gl := { s.gl with calls := s.gl.calls ++ [⟨i, c⟩] } }

/-- Record the OpenGL calls `cs`, issued in that order by iteration `i`. -/
def State.glCalls (i : Nat) (cs : List GLCall) (s : State) : State :=
  { s with gl := { s.gl with calls := s.gl.calls ++ cs.map (GLEvent.mk i) } }

/-- Apply `f` to the buffer group at position `idx` (a write through the
`shared_ptr` held there). -/
def State.modifyGroup (idx : Nat) (f : BufferGroup → BufferGroup) (s : State) : State :=
  { s with self := { s.self with buffer_groups := s.self.buffer_groups.modify f idx } }

/-- Modelled from the spec: `sizeof(resource::VertexData)`; the record is declared in
`resources/mesh.hpp` (absent) and holds position (3 floats), normal (3 floats),
color (4 floats) and uv (2 floats) in that order. -/
def sizeof_VertexData : Nat := 48

/-- Byte offsets of the four members of the vertex record. -/
def offsetof_position : Nat := 0
def offsetof_normal : Nat := 12
def offsetof_color : Nat := 24
def offsetof_uv : Nat := 40

/-- The width `sizeof(unsigned int)`. -/
def sizeof_unsigned_int : Nat := 4

/-- The value `glGetAttribLocation` stores into a `GLuint`: the location, or `-1`
wrapped to 32 bits when the program has no such attribute. -/
def GLContext.attribLocation (gl : GLContext) (program : Nat) (name : String) : Nat :=
  match gl.attrib_locations.lookup (program, name) with
  | some loc => loc % 2 ^ 32
  | none => 2 ^ 32 - 1

/-- Modelled from the spec: the constructor of `BufferGroup` is declared in
`components/renderable.hpp`, which is absent; a new group has index count zero and no
textures. Lines 25-28: the object built by `std::make_shared<BufferGroup>()` once
`glGenVertexArrays` and the two `glGenBuffers` have written its handles. -/
def newBufferGroup (s : State) : BufferGroup :=
  { addr := s.heap_next, vao := s.gl.next_vertex_array, vbo := s.gl.next_buffer,
    ibo := s.gl.next_buffer + 1, ibo_count := 0, textures := [] }

/-- Lines 20-30: take the buffer group at index `i`, or build a new one, generate
its three handles and append it. Returns the position of the group in
`buffer_groups` and the group. -/
def acquireBufferGroup (i : Nat) (s : State) : State × Nat × BufferGroup :=
  if h : i < s.self.buffer_groups.length then
    (s, i, s.self.buffer_groups[i])
  else
    let bg : BufferGroup := newBufferGroup s
    let s1 : State :=
      { s with
        heap_next := s.heap_next + 1
        gl := { s.gl with
          next_vertex_array := s.gl.next_vertex_array + 1
          next_buffer := s.gl.next_buffer + 2 } }
    let s2 := s1.glCalls i
      [.glGenVertexArrays bg.vao, .glGenBuffers bg.vbo, .glGenBuffers bg.ibo]
    ({ s2 with self := { s2.self with buffer_groups := s2.self.buffer_groups ++ [bg] } },
      s.self.buffer_groups.length, bg)

/-- Lines 38-53: the loop over the texture names of a mesh group; `idx` is the
position of the buffer group being filled. -/
def addTextures (idx : Nat) : List String → State → State
  | [], s => s
  | texture_name :: rest, s =>
    match s.registry.GetTexture texture_name with
    | some texture =>
      addTextures idx rest
        (s.modifyGroup idx (fun b => { b with textures := b.textures ++ [texture] }))
    | none =>
      match s.registry.CreatePixelBuffer texture_name [⟨"filename", texture_name⟩] with
      | some pixel_data =>
        let texture : Texture := { addr := s.heap_next, pixels := pixel_data }
        let s1 : State :=
          { s with
            heap_next := s.heap_next + 1
            registry := s.registry.AddTexture texture_name texture }
        addTextures idx rest
          (s1.modifyGroup idx (fun b => { b with textures := b.textures ++ [texture] }))
      | none => addTextures idx rest s

/-- Lines 56-86: upload the vertices and describe the four attributes, when the
group has vertices. -/
def uploadVerts (i : Nat) (bg : BufferGroup) (g : MeshGroup) (s : State) : State :=
  if g.verts.length > 0 then
    let shader_program : Nat :=
      match s.self.shader with
      | some sh => sh.program
      | none => 0
    let posLocation := s.gl.attribLocation shader_program "pos"
    let normalLocation := s.gl.attribLocation shader_program "norm"
    let colLocation := s.gl.attribLocation shader_program "color"
    let uvLocation := s.gl.attribLocation shader_program "tex1"
    s.glCalls i
      [.glBindBuffer .GL_ARRAY_BUFFER bg.vbo,
       .glBufferData .GL_ARRAY_BUFFER (sizeof_VertexData * g.verts.length) (.verts g.verts),
       .glGetAttribLocation shader_program "pos",
       .glVertexAttribPointer posLocation 3 sizeof_VertexData offsetof_position,
       .glEnableVertexAttribArray posLocation,
       .glGetAttribLocation shader_program "norm",
       .glVertexAttribPointer normalLocation 3 sizeof_VertexData offsetof_normal,
       .glEnableVertexAttribArray normalLocation,
       .glGetAttribLocation shader_program "color",
       .glVertexAttribPointer colLocation 4 sizeof_VertexData offsetof_color,
       .glEnableVertexAttribArray colLocation,
       .glGetAttribLocation shader_program "tex1",
       .glVertexAttribPointer uvLocation 2 sizeof_VertexData offsetof_uv,
       .glEnableVertexAttribArray uvLocation]
  else s

/-- Lines 88-93: upload the indices and record their number, when the group has
indices. -/
def uploadIndicies (i idx : Nat) (bg : BufferGroup) (g : MeshGroup) (s : State) : State :=
  if g.indicies.length > 0 then
    let s := s.glCalls i
      [.glBindBuffer .GL_ELEMENT_ARRAY_BUFFER bg.ibo,
       .glBufferData .GL_ELEMENT_ARRAY_BUFFER (sizeof_unsigned_int * g.indicies.length)
         (.indicies g.indicies)]
    s.modifyGroup idx (fun b => { b with ibo_count := g.indicies.length })
  else s

/-- Lines 38-96: the rest of an iteration once the mesh group has been locked:
the textures, the two uploads, and the final `glBindVertexArray(0)`. -/
def fillBufferGroup (i idx : Nat) (buffer_group : BufferGroup) (temp_meshgroup : MeshGroup)
    (s : State) : State :=
  let s := addTextures idx temp_meshgroup.textures s
  let s := uploadVerts i buffer_group temp_meshgroup s
  let s := uploadIndicies i idx buffer_group temp_meshgroup s
  s.glCall i (.glBindVertexArray 0)

/-- Lines 20-96: one iteration of the loop of `UpdateBufferGroups`. The range-for of
line 38 reads `temp_meshgroup->textures` before `temp_meshgroup` is tested on
line 55, so an expired mesh group is a fault. -/
def updateGroup (m : Mesh) (i : Nat) (s : State) : Option State :=
  match acquireBufferGroup i s with
  | (s, idx, buffer_group) =>
    let s := s.glCall i (.glBindVertexArray buffer_group.vao)
    match m.GetMeshGroup i with
    | none => none
    | some temp_meshgroup => some (fillBufferGroup i idx buffer_group temp_meshgroup s)

/-- The loop of line 19 over the indices still to visit. -/
def updateLoop (m : Mesh) : List Nat → State → Option State
  | [], s => some s
  | i :: rest, s =>
    match updateGroup m i s with
    | none => none
    | some s1 => updateLoop m rest s1

/-- The member function `Renderable::UpdateBufferGroups`. -/
def UpdateBufferGroups (s : State) : Option State :=
  match s.self.mesh with
  | none => some s
  | some m => updateLoop m (List.range m.GetMeshGroupCount) s

/-- The member function `Renderable::SetMesh`. -/
def SetMesh (m : Option Mesh) (s : State) : State :=
  { s with self := { s.self with mesh := m } }

/-- The member function `Renderable::GetMesh`. -/
def GetMesh (s : State) : Option Mesh := s.self.mesh

/-- The member function `Renderable::SetShader`. -/
def SetShader (m : Option Shader) (s : State) : State :=
  { s with self := { s.self with shader := m } }

/-- The member function `Renderable::GetShader`. -/
def GetShader (s : State) : Option Shader := s.self.shader

/-- Lines 118-128: the names left in `mesh_name` and `shader_name` by the loop over
the properties (both start as the empty string). -/
def propertyNames (properties : List Property) : String × String :=
  properties.foldl
    (fun names p =>
      if p.name = "mesh" then (p.value, names.2)
      else if p.name = "shader" then (names.1, p.value)
      else names)
    ("", "")

/-- The member function `Renderable::Initialize`: the returned flag and the state
it leaves. -/
def Initialize (properties : List Property) (s : State) : Option (Bool × State) :=
  let mesh_name := (propertyNames properties).1
  let shader_name := (propertyNames properties).2
  let s := SetMesh (s.registry.GetMesh mesh_name) s
  match s.self.mesh with
  | none => some (false, s)
  | some _ =>
    let s := SetShader (s.registry.GetShader shader_name) s
    match s.self.shader with
    | none => some (false, s)
    | some _ =>
      match UpdateBufferGroups s with
      | none => none
      | some s1 => some (true, s1)

/-! ## Vocabulary of the statements -/

/-- The identity of a buffer group: its address and its three handles. -/
def BufferGroup.ident (b : BufferGroup) : Nat × Nat × Nat × Nat := (b.addr, b.vao, b.vbo, b.ibo)

/-- A handle-generating call. -/
def GLCall.isGen : GLCall → Bool
  | .glGenVertexArrays _ => true
  | .glGenBuffers _ => true
  | _ => false

/-- An upload into the vertex buffer. -/
def GLCall.isVertexUpload : GLCall → Bool
  | .glBufferData .GL_ARRAY_BUFFER _ _ => true
  | _ => false

/-- A call that looks up, describes or enables a vertex attribute. -/
def GLCall.isAttribConfig : GLCall → Bool
  | .glGetAttribLocation _ _ => true
  | .glVertexAttribPointer _ _ _ _ => true
  | .glEnableVertexAttribArray _ => true
  | _ => false

/-- An upload into the index buffer. -/
def GLCall.isIndexUpload : GLCall → Bool
  | .glBufferData .GL_ELEMENT_ARRAY_BUFFER _ _ => true
  | _ => false

/-- A texture name resolves: the registry has it, or its pixel buffer can be created. -/
def ResourceMap.resolves (r : ResourceMap) (name : String) : Bool :=
  (r.GetTexture name).isSome || (r.CreatePixelBuffer name [⟨"filename", name⟩]).isSome

/-- The registry `r1` extends `r`: same meshes, shaders and files, every texture of `r`
is still there under its name, and a name that neither is in `r` nor can be
created is not in `r1`. -/
structure RegExt (r r1 : ResourceMap) : Prop where
  meshes : r1.meshes = r.meshes
  shaders : r1.shaders = r.shaders
  pixel_files : r1.pixel_files = r.pixel_files
  keep : ∀ n t, r.GetTexture n = some t → r1.GetTexture n = some t
  absent : ∀ n, r.GetTexture n = none → r.pixel_files.lookup n = none → r1.GetTexture n = none

/-- Every name of `names` that is not registered in `r` cannot be created either. -/
def Settled (r : ResourceMap) (names : List String) : Prop :=
  ∀ n ∈ names, r.GetTexture n = none → r.pixel_files.lookup n = none

/-- What the texture loop leaves behind. -/
structure TexturesSpec (idx : Nat) (names : List String) (s s1 : State) : Prop where
  gl : s1.gl = s.gl
  mesh : s1.self.mesh = s.self.mesh
  shader : s1.self.shader = s.self.shader
  ext : RegExt s.registry s1.registry
  settled : Settled s1.registry names
  groups : s1.self.buffer_groups = s.self.buffer_groups.modify
    (fun b => { b with textures := b.textures ++ names.filterMap s1.registry.GetTexture }) idx

/-- The buffer groups once iteration `i` has taken or appended its group. -/
def acquired (i : Nat) (s : State) : List BufferGroup :=
  if i < s.self.buffer_groups.length then s.self.buffer_groups
  else s.self.buffer_groups ++ [newBufferGroup s]

/-- The buffer group `b` once the mesh group `g` has been processed into it, `r` being
the registry at the end of the iteration. -/
def filled (r : ResourceMap) (g : MeshGroup) (b : BufferGroup) : BufferGroup :=
  { b with
    textures := b.textures ++ g.textures.filterMap r.GetTexture
    ibo_count := if 0 < g.indicies.length then g.indicies.length else b.ibo_count }

/-- The two calls that upload the indices of `g` into the buffer `ibo`. -/
def indexUpload (i ibo : Nat) (g : MeshGroup) : List GLEvent :=
  [⟨i, .glBindBuffer .GL_ELEMENT_ARRAY_BUFFER ibo⟩,
   ⟨i, .glBufferData .GL_ELEMENT_ARRAY_BUFFER (sizeof_unsigned_int * g.indicies.length)
     (.indicies g.indicies)⟩]

/-- A call logged by iteration `i` is one that iteration may issue: handles are
generated only for a group beyond the `len` existing ones, vertex calls need
vertices and the index upload needs indices. -/
def EventOk (i len : Nat) (g : MeshGroup) (e : GLEvent) : Prop :=
  e.group = i ∧ (e.call.isGen = true → len ≤ i) ∧
  (e.call.isVertexUpload = true ∨ e.call.isAttribConfig = true → 0 < g.verts.length) ∧
  (e.call.isIndexUpload = true → 0 < g.indicies.length)

/-- What `fillBufferGroup` does, whatever the position `idx` of the group. -/
structure FillSpec (i idx len : Nat) (bg : BufferGroup) (g : MeshGroup) (s s1 : State) :
    Prop where
  mesh : s1.self.mesh = s.self.mesh
  shader : s1.self.shader = s.self.shader
  ext : RegExt s.registry s1.registry
  settled : Settled s1.registry g.textures
  groups : s1.self.buffer_groups = s.self.buffer_groups.modify (filled s1.registry g) idx
  attrib : s1.gl.attrib_locations = s.gl.attrib_locations
  vertex_array : s1.gl.next_vertex_array = s.gl.next_vertex_array
  buffer : s1.gl.next_buffer = s.gl.next_buffer
  calls : ∃ seg, s1.gl.calls = s.gl.calls ++ seg ∧ (∀ e ∈ seg, EventOk i len g e) ∧
    (0 < g.indicies.length → indexUpload i bg.ibo g <:+: seg)

/-- What one iteration of the loop does to a state with at least `i` buffer groups. -/
structure GroupSpec (i : Nat) (g : MeshGroup) (s s1 : State) : Prop where
  mesh : s1.self.mesh = s.self.mesh
  shader : s1.self.shader = s.self.shader
  ext : RegExt s.registry s1.registry
  settled : Settled s1.registry g.textures
  groups : s1.self.buffer_groups = (acquired i s).modify (filled s1.registry g) i
  attrib : s1.gl.attrib_locations = s.gl.attrib_locations
  vertex_array : s1.gl.next_vertex_array =
    if i < s.self.buffer_groups.length then s.gl.next_vertex_array
    else s.gl.next_vertex_array + 1
  buffer : s1.gl.next_buffer =
    if i < s.self.buffer_groups.length then s.gl.next_buffer else s.gl.next_buffer + 2
  calls : ∃ seg, s1.gl.calls = s.gl.calls ++ seg ∧
    (∀ e ∈ seg, EventOk i s.self.buffer_groups.length g e) ∧
    (0 < g.indicies.length → ∀ b, (acquired i s)[i]? = some b →
      indexUpload i b.ibo g <:+: seg)

/-- The textures of the buffer group at position `j` (none when there is no such group). -/
def texturesAt (s : State) (j : Nat) : List Texture :=
  match s.self.buffer_groups[j]? with
  | some b => b.textures
  | none => []

/-- The index count of the buffer group at position `j` (zero when there is no such
group). -/
def indexCountAt (s : State) (j : Nat) : Nat :=
  match s.self.buffer_groups[j]? with
  | some b => b.ibo_count
  | none => 0

/-- The calls logged between the state `s` and the later state `s1`. -/
def callsSince (s s1 : State) : List GLEvent := s1.gl.calls.drop s.gl.calls.length

/-- The state `s` reached from `s0` once the loop of `UpdateBufferGroups` over the
mesh `m` has done the iterations `0 .. n-1`. -/
structure LoopInv (m : Mesh) (s0 : State) (n : Nat) (s : State) : Prop where
  mesh : s.self.mesh = s0.self.mesh
  shader : s.self.shader = s0.self.shader
  ext : RegExt s0.registry s.registry
  settled : ∀ j, j < n → ∀ g, m.GetMeshGroup j = some g → Settled s.registry g.textures
  len : s.self.buffer_groups.length = max s0.self.buffer_groups.length n
  ident : s0.self.buffer_groups.map BufferGroup.ident <+:
    s.self.buffer_groups.map BufferGroup.ident
  untouched : ∀ j, n ≤ j → s.self.buffer_groups[j]? = s0.self.buffer_groups[j]?
  tex : ∀ j, j < n → ∀ g, m.GetMeshGroup j = some g →
    texturesAt s j = texturesAt s0 j ++ g.textures.filterMap s.registry.GetTexture
  count : ∀ j, j < n → ∀ g, m.GetMeshGroup j = some g →
    indexCountAt s j = if 0 < g.indicies.length then g.indicies.length else indexCountAt s0 j
  attrib : s.gl.attrib_locations = s0.gl.attrib_locations
  vertex_array : s.gl.next_vertex_array =
    s0.gl.next_vertex_array + (max s0.self.buffer_groups.length n - s0.self.buffer_groups.length)
  buffer : s.gl.next_buffer =
    s0.gl.next_buffer + 2 * (max s0.self.buffer_groups.length n - s0.self.buffer_groups.length)
  calls : ∃ seg, s.gl.calls = s0.gl.calls ++ seg ∧
    (∀ e ∈ seg, e.group < n ∧
      ∃ g, m.GetMeshGroup e.group = some g ∧ EventOk e.group s0.self.buffer_groups.length g e) ∧
    (∀ j, j < n → ∀ g, m.GetMeshGroup j = some g → 0 < g.indicies.length →
      ∀ b, s.self.buffer_groups[j]? = some b → indexUpload j b.ibo g <:+: seg)

/-! ## Call sequences -/

/-- Every group reference of the mesh locks to a live mesh group. -/
def Mesh.live (m : Mesh) : Bool := m.mesh_groups.all Option.isSome

/-- The group count of the mesh bound to the Renderable (zero when none is bound). -/
def boundGroupCount (s : State) : Nat :=
  match s.self.mesh with
  | some m => m.GetMeshGroupCount
  | none => 0

/-- A call of one of the four mutating member functions. -/
inductive Op where
  | Initialize (properties : List Property)
  | SetMesh (m : Option Mesh)
  | SetShader (m : Option Shader)
  | UpdateBufferGroups
deriving DecidableEq, Repr

/-- The state a call leaves, when it returns. -/
def applyOp : Op → State → Option State
  | .Initialize properties, s => (Initialize properties s).map Prod.snd
  | .SetMesh m, s => some (SetMesh m s)
  | .SetShader m, s => some (SetShader m s)
  | .UpdateBufferGroups, s => UpdateBufferGroups s

/-- The state a sequence of calls leaves, when all of them return. -/
def run : List Op → State → Option State
  | [], s => some s
  | op :: rest, s => (applyOp op s).bind (run rest)

/-- The state after `k` consecutive calls of `UpdateBufferGroups`. -/
def repeatUpdate : Nat → State → Option State
  | 0, s => some s
  | k + 1, s => (repeatUpdate k s).bind UpdateBufferGroups

/-! ## Concrete inputs -/

/-- A vertex with all attributes zero. -/
def zeroVertex : VertexData :=
  { position := (0, 0, 0), normal := (0, 0, 0), color := (0, 0, 0, 0), uv := (0, 0) }

/-- A quad: 4 vertices, 6 indices, one texture name. -/
def quadGroup : MeshGroup :=
  { verts := [zeroVertex, zeroVertex, zeroVertex, zeroVertex], indicies := [0, 1, 2, 2, 3, 0],
    textures := ["stone"] }

/-- A group with no vertices, no indices and no textures. -/
def emptyGroup : MeshGroup := { verts := [], indicies := [], textures := [] }

/-- A group with two texture names, of which `"missing"` is neither registered nor a
loadable file. -/
def decalGroup : MeshGroup :=
  { verts := [zeroVertex], indicies := [0], textures := ["missing", "moss"] }

/-- The mesh of the spec's scenario: the quad, then the empty group. -/
def quadMesh : Mesh := { mesh_groups := [some quadGroup, some emptyGroup] }

/-- A mesh with the empty group only. -/
def smallMesh : Mesh := { mesh_groups := [some emptyGroup] }

/-- A mesh with the decal group only. -/
def decalMesh : Mesh := { mesh_groups := [some decalGroup] }

/-- A mesh whose first group reference has expired; the second one still locks. -/
def expiredMesh : Mesh := { mesh_groups := [none, some quadGroup] }

/-- A mesh whose first group is the decal group and whose second group reference has
expired. -/
def decalExpiredMesh : Mesh := { mesh_groups := [some decalGroup, none] }

/-- A registry with the four meshes, one shader, the texture `"stone"` and the
loadable file `"moss"`. -/
def sampleRegistry : ResourceMap :=
  { meshes := [("quad", quadMesh), ("small", smallMesh), ("decal", decalMesh),
      ("expired", expiredMesh)]
    shaders := [("basic", { program := 7 })]
    textures := [("stone", { addr := 100, pixels := { data := [1] } })]
    pixel_files := [("moss", { data := [2] })] }

/-- A freshly constructed Renderable in a context that has issued no call yet. -/
def sampleState : State :=
  { registry := sampleRegistry
    gl := { next_vertex_array := 1, next_buffer := 1, attrib_locations := [((7, "pos"), 0)],
            calls := [] }
    heap_next := 0
    self := Renderable.new }

/-! ## Lemmas

### Registries and the texture loop -/


theorem RegExt.refl (r : ResourceMap) : RegExt r r :=
  ⟨rfl, rfl, rfl, fun _ _ h => h, fun _ h _ => h⟩

theorem RegExt.trans {a b c : ResourceMap} (h1 : RegExt a b) (h2 : RegExt b c) : RegExt a c where
  meshes := h2.meshes.trans h1.meshes
  shaders := h2.shaders.trans h1.shaders
  pixel_files := h2.pixel_files.trans h1.pixel_files
  keep := fun n t h => h2.keep n t (h1.keep n t h)
  absent := fun n h hp => h2.absent n (h1.absent n h hp) (by rw [h1.pixel_files]; exact hp)

theorem CreatePixelBuffer_filename (r : ResourceMap) (n : String) :
    r.CreatePixelBuffer n [⟨"filename", n⟩] = r.pixel_files.lookup n := by
  simp [ResourceMap.CreatePixelBuffer, Property.find]

theorem GetTexture_AddTexture (r : ResourceMap) (n k : String) (t : Texture) :
    (r.AddTexture n t).GetTexture k = if k = n then some t else r.GetTexture k := by
  simp only [ResourceMap.GetTexture, ResourceMap.AddTexture, List.lookup_cons]
  by_cases h : k = n
  · subst h; simp
  · have hb : (k == n) = false := by simpa using h
    simp [hb, h]

theorem RegExt.add {r : ResourceMap} {n : String} (t : Texture) (h : r.GetTexture n = none)
    (hp : r.pixel_files.lookup n ≠ none) : RegExt r (r.AddTexture n t) where
  meshes := rfl
  shaders := rfl
  pixel_files := rfl
  keep := by
    intro k u hk
    rw [GetTexture_AddTexture]
    by_cases e : k = n
    · subst e; rw [h] at hk; cases hk
    · simp [e, hk]
  absent := by
    intro k hk hkp
    rw [GetTexture_AddTexture]
    by_cases e : k = n
    · subst e; exact absurd hkp hp
    · simp [e, hk]

@[simp] theorem glCall_registry (i c) (s : State) : (s.glCall i c).registry = s.registry := rfl
@[simp] theorem glCall_heap_next (i c) (s : State) : (s.glCall i c).heap_next = s.heap_next := rfl
@[simp] theorem glCall_self (i c) (s : State) : (s.glCall i c).self = s.self := rfl
@[simp] theorem glCall_calls (i c) (s : State) :
    (s.glCall i c).gl.calls = s.gl.calls ++ [⟨i, c⟩] := rfl
@[simp] theorem glCall_next_vertex_array (i c) (s : State) :
    (s.glCall i c).gl.next_vertex_array = s.gl.next_vertex_array := rfl
@[simp] theorem glCall_next_buffer (i c) (s : State) :
    (s.glCall i c).gl.next_buffer = s.gl.next_buffer := rfl
@[simp] theorem glCall_attrib_locations (i c) (s : State) :
    (s.glCall i c).gl.attrib_locations = s.gl.attrib_locations := rfl
@[simp] theorem glCalls_registry (i cs) (s : State) : (s.glCalls i cs).registry = s.registry := rfl
@[simp] theorem glCalls_heap_next (i cs) (s : State) :
    (s.glCalls i cs).heap_next = s.heap_next := rfl
@[simp] theorem glCalls_self (i cs) (s : State) : (s.glCalls i cs).self = s.self := rfl
@[simp] theorem glCalls_calls (i cs) (s : State) :
    (s.glCalls i cs).gl.calls = s.gl.calls ++ cs.map (GLEvent.mk i) := rfl
@[simp] theorem glCalls_next_vertex_array (i cs) (s : State) :
    (s.glCalls i cs).gl.next_vertex_array = s.gl.next_vertex_array := rfl
@[simp] theorem glCalls_next_buffer (i cs) (s : State) :
    (s.glCalls i cs).gl.next_buffer = s.gl.next_buffer := rfl
@[simp] theorem glCalls_attrib_locations (i cs) (s : State) :
    (s.glCalls i cs).gl.attrib_locations = s.gl.attrib_locations := rfl
@[simp] theorem modifyGroup_registry (i f) (s : State) :
    (s.modifyGroup i f).registry = s.registry := rfl
@[simp] theorem modifyGroup_heap_next (i f) (s : State) :
    (s.modifyGroup i f).heap_next = s.heap_next := rfl
@[simp] theorem modifyGroup_gl (i f) (s : State) : (s.modifyGroup i f).gl = s.gl := rfl
@[simp] theorem modifyGroup_mesh (i f) (s : State) :
    (s.modifyGroup i f).self.mesh = s.self.mesh := rfl
@[simp] theorem modifyGroup_shader (i f) (s : State) :
    (s.modifyGroup i f).self.shader = s.self.shader := rfl
@[simp] theorem modifyGroup_buffer_groups (i f) (s : State) :
    (s.modifyGroup i f).self.buffer_groups = s.self.buffer_groups.modify f i := rfl

theorem modify_eq_self_of_id (f : BufferGroup → BufferGroup) (hf : ∀ b, f b = b)
    (l : List BufferGroup) (idx : Nat) : l.modify f idx = l := by
  have : f = id := funext hf
  subst this
  apply List.ext_getElem?
  intro n
  simp [List.getElem?_modify]

theorem modify_id_textures (l : List BufferGroup) (idx : Nat) :
    l.modify (fun b => { b with textures := b.textures ++ [] }) idx = l :=
  modify_eq_self_of_id _ (fun b => by simp) l idx

theorem addTextures_spec (idx : Nat) (names : List String) (s : State) :
    TexturesSpec idx names s (addTextures idx names s) := by
  induction names generalizing s with
  | nil =>
    exact ⟨rfl, rfl, rfl, RegExt.refl _, fun _ h => by simp at h,
      (modify_id_textures _ _).symm⟩
  | cons n rest ih =>
    unfold addTextures
    cases hq : s.registry.GetTexture n with
    | some t =>
      simp only
      have h := ih (s.modifyGroup idx (fun b => { b with textures := b.textures ++ [t] }))
      have hn := h.ext.keep n t hq
      refine ⟨h.gl, h.mesh, h.shader, h.ext, ?_, ?_⟩
      · intro k hk
        rcases List.mem_cons.1 hk with e | e
        · subst e; intro hno; rw [hn] at hno; cases hno
        · exact h.settled k e
      · rw [h.groups]
        simp only [modifyGroup_buffer_groups, List.modify_modify_eq, List.filterMap_cons, hn]
        congr 1
        funext b
        simp
    | none =>
      simp only [CreatePixelBuffer_filename]
      cases hp : s.registry.pixel_files.lookup n with
      | some pd =>
        simp only
        have h := ih (State.modifyGroup idx
          (fun b => { b with textures := b.textures ++ [⟨s.heap_next, pd⟩] })
          { s with heap_next := s.heap_next + 1,
                   registry := s.registry.AddTexture n ⟨s.heap_next, pd⟩ })
        have hadd : RegExt s.registry (s.registry.AddTexture n ⟨s.heap_next, pd⟩) :=
          RegExt.add _ hq (by rw [hp]; simp)
        have hn := h.ext.keep n ⟨s.heap_next, pd⟩ (by
          simp [GetTexture_AddTexture])
        refine ⟨h.gl, h.mesh, h.shader, hadd.trans h.ext, ?_, ?_⟩
        · intro k hk
          rcases List.mem_cons.1 hk with e | e
          · subst e; intro hno; rw [hn] at hno; cases hno
          · exact h.settled k e
        · rw [h.groups]
          simp only [modifyGroup_buffer_groups, List.modify_modify_eq, List.filterMap_cons, hn]
          congr 1
          funext b
          simp
      | none =>
        simp only
        have h := ih s
        have hn := h.ext.absent n hq hp
        refine ⟨h.gl, h.mesh, h.shader, h.ext, ?_, ?_⟩
        · intro k hk
          rcases List.mem_cons.1 hk with e | e
          · subst e; intro _; rw [h.ext.pixel_files]; exact hp
          · exact h.settled k e
        · rw [h.groups]
          simp only [List.filterMap_cons, hn]

/-! ### The two uploads -/

@[simp] theorem uploadVerts_registry (i bg g) (s : State) :
    (uploadVerts i bg g s).registry = s.registry := by
  unfold uploadVerts; split <;> rfl

@[simp] theorem uploadVerts_self (i bg g) (s : State) :
    (uploadVerts i bg g s).self = s.self := by
  unfold uploadVerts; split <;> rfl

@[simp] theorem uploadVerts_next_vertex_array (i bg g) (s : State) :
    (uploadVerts i bg g s).gl.next_vertex_array = s.gl.next_vertex_array := by
  unfold uploadVerts; split <;> rfl

@[simp] theorem uploadVerts_next_buffer (i bg g) (s : State) :
    (uploadVerts i bg g s).gl.next_buffer = s.gl.next_buffer := by
  unfold uploadVerts; split <;> rfl

@[simp] theorem uploadVerts_attrib_locations (i bg g) (s : State) :
    (uploadVerts i bg g s).gl.attrib_locations = s.gl.attrib_locations := by
  unfold uploadVerts; split <;> rfl

theorem uploadVerts_calls (i len : Nat) (bg : BufferGroup) (g : MeshGroup) (s : State) :
    ∃ seg, (uploadVerts i bg g s).gl.calls = s.gl.calls ++ seg ∧
      ∀ e ∈ seg, EventOk i len g e := by
  unfold uploadVerts
  split
  · rename_i h
    refine ⟨_, glCalls_calls _ _ _, ?_⟩
    intro e he
    simp only [List.map_cons, List.map_nil, List.mem_cons, List.mem_singleton,
      List.not_mem_nil, or_false] at he
    rcases he with rfl | rfl | rfl | rfl | rfl | rfl | rfl | rfl | rfl | rfl | rfl | rfl |
      rfl | rfl <;>
    simp [EventOk, GLCall.isGen, GLCall.isIndexUpload, h]
  · exact ⟨[], by simp, by simp⟩

@[simp] theorem uploadIndicies_registry (i idx bg g) (s : State) :
    (uploadIndicies i idx bg g s).registry = s.registry := by
  unfold uploadIndicies; split <;> rfl

@[simp] theorem uploadIndicies_mesh (i idx bg g) (s : State) :
    (uploadIndicies i idx bg g s).self.mesh = s.self.mesh := by
  unfold uploadIndicies; split <;> rfl

@[simp] theorem uploadIndicies_shader (i idx bg g) (s : State) :
    (uploadIndicies i idx bg g s).self.shader = s.self.shader := by
  unfold uploadIndicies; split <;> rfl

@[simp] theorem uploadIndicies_next_vertex_array (i idx bg g) (s : State) :
    (uploadIndicies i idx bg g s).gl.next_vertex_array = s.gl.next_vertex_array := by
  unfold uploadIndicies; split <;> rfl

@[simp] theorem uploadIndicies_next_buffer (i idx bg g) (s : State) :
    (uploadIndicies i idx bg g s).gl.next_buffer = s.gl.next_buffer := by
  unfold uploadIndicies; split <;> rfl

@[simp] theorem uploadIndicies_attrib_locations (i idx bg g) (s : State) :
    (uploadIndicies i idx bg g s).gl.attrib_locations = s.gl.attrib_locations := by
  unfold uploadIndicies; split <;> rfl

theorem uploadIndicies_buffer_groups (i idx bg) (g : MeshGroup) (s : State) :
    (uploadIndicies i idx bg g s).self.buffer_groups = s.self.buffer_groups.modify
      (fun b => { b with
        ibo_count := if 0 < g.indicies.length then g.indicies.length else b.ibo_count }) idx := by
  by_cases h : 0 < g.indicies.length
  · simp only [uploadIndicies, gt_iff_lt, h, if_true, modifyGroup_buffer_groups, glCalls_self]
  · simp only [uploadIndicies, gt_iff_lt, h, if_false]
    exact (modify_eq_self_of_id _ (fun b => rfl) _ _).symm

theorem uploadIndicies_calls (i idx : Nat) (bg : BufferGroup) (g : MeshGroup) (s : State) :
    (uploadIndicies i idx bg g s).gl.calls =
      s.gl.calls ++ (if 0 < g.indicies.length then indexUpload i bg.ibo g else []) := by
  unfold uploadIndicies
  split
  · simp [indexUpload]
  · simp

theorem indexUpload_ok (i len ibo : Nat) (g : MeshGroup) (h : 0 < g.indicies.length) :
    ∀ e ∈ indexUpload i ibo g, EventOk i len g e := by
  intro e he
  simp only [indexUpload, List.mem_cons, List.mem_singleton, List.not_mem_nil, or_false] at he
  rcases he with rfl | rfl <;>
  simp [EventOk, GLCall.isGen, GLCall.isVertexUpload, GLCall.isAttribConfig,
    GLCall.isIndexUpload, h]

/-! ### One iteration -/

theorem fillBufferGroup_spec (i idx len : Nat) (bg : BufferGroup) (g : MeshGroup) (s : State) :
    FillSpec i idx len bg g s (fillBufferGroup i idx bg g s) := by
  have hT := addTextures_spec idx g.textures s
  obtain ⟨vseg, hv, hvok⟩ := uploadVerts_calls i len bg g (addTextures idx g.textures s)
  have hi := uploadIndicies_calls i idx bg g (uploadVerts i bg g (addTextures idx g.textures s))
  refine ⟨?_, ?_, ?_, ?_, ?_, ?_, ?_, ?_, ?_⟩
  · simp [fillBufferGroup, hT.mesh]
  · simp [fillBufferGroup, hT.shader]
  · simpa [fillBufferGroup] using hT.ext
  · simpa [fillBufferGroup] using hT.settled
  · simp only [fillBufferGroup, glCall_self, glCall_registry, uploadIndicies_registry,
      uploadVerts_registry, uploadIndicies_buffer_groups, uploadVerts_self]
    rw [hT.groups, List.modify_modify_eq]
    rfl
  · simp [fillBufferGroup, hT.gl]
  · simp [fillBufferGroup, hT.gl]
  · simp [fillBufferGroup, hT.gl]
  · refine ⟨vseg ++ (if 0 < g.indicies.length then indexUpload i bg.ibo g else []) ++
      [⟨i, .glBindVertexArray 0⟩], ?_, ?_, ?_⟩
    · simp only [fillBufferGroup, glCall_calls, hi, hv, hT.gl, List.append_assoc]
    · intro e he
      simp only [List.mem_append, List.mem_singleton] at he
      rcases he with (he | he) | rfl
      · exact hvok e he
      · by_cases h : 0 < g.indicies.length
        · rw [if_pos h] at he
          exact indexUpload_ok i len bg.ibo g h e he
        · rw [if_neg h] at he
          cases he
      · simp [EventOk, GLCall.isGen, GLCall.isVertexUpload, GLCall.isAttribConfig,
          GLCall.isIndexUpload]
    · intro h
      rw [if_pos h]
      exact ⟨vseg, [⟨i, .glBindVertexArray 0⟩], by simp⟩

theorem updateGroup_spec (m : Mesh) (i : Nat) (g : MeshGroup) (s : State)
    (hi : i ≤ s.self.buffer_groups.length) (hg : m.GetMeshGroup i = some g) :
    ∃ s1, updateGroup m i s = some s1 ∧ GroupSpec i g s s1 := by
  by_cases hlt : i < s.self.buffer_groups.length
  · have hacq : acquireBufferGroup i s = (s, i, s.self.buffer_groups[i]) := by
      simp [acquireBufferGroup, hlt]
    have hF := fillBufferGroup_spec i i s.self.buffer_groups.length s.self.buffer_groups[i] g
      (s.glCall i (.glBindVertexArray s.self.buffer_groups[i].vao))
    have hupd : updateGroup m i s = some (fillBufferGroup i i s.self.buffer_groups[i] g
        (s.glCall i (.glBindVertexArray s.self.buffer_groups[i].vao))) := by
      simp only [updateGroup, hacq, hg]
    refine ⟨_, hupd, ?_⟩
    obtain ⟨seg, hseg, hok, hinf⟩ := hF.calls
    refine ⟨hF.mesh, hF.shader, hF.ext, hF.settled, ?_, hF.attrib, ?_, ?_, ?_⟩
    · rw [hF.groups]; simp [acquired, hlt]
    · rw [hF.vertex_array]; simp [hlt]
    · rw [hF.buffer]; simp [hlt]
    · refine ⟨⟨i, .glBindVertexArray s.self.buffer_groups[i].vao⟩ :: seg, ?_, ?_, ?_⟩
      · rw [hseg]; simp
      · intro e he
        rcases List.mem_cons.1 he with rfl | he
        · simp [EventOk, GLCall.isGen, GLCall.isVertexUpload, GLCall.isAttribConfig,
            GLCall.isIndexUpload]
        · exact hok e he
      · intro h b hb
        have : b = s.self.buffer_groups[i] := by
          simp only [acquired, hlt, if_true] at hb
          rw [List.getElem?_eq_getElem hlt] at hb
          exact (Option.some.inj hb).symm
        subst this
        exact (hinf h).trans (List.infix_cons (List.infix_refl _))
  · have hlen : i = s.self.buffer_groups.length := by omega
    have hF := fillBufferGroup_spec i s.self.buffer_groups.length s.self.buffer_groups.length
      (newBufferGroup s) g
      ((acquireBufferGroup i s).1.glCall i (.glBindVertexArray (newBufferGroup s).vao))
    have hacq : acquireBufferGroup i s =
        ((acquireBufferGroup i s).1, s.self.buffer_groups.length, newBufferGroup s) := by
      simp [acquireBufferGroup, hlt]
    have hbg : (acquireBufferGroup i s).1.self.buffer_groups = acquired i s := by
      simp [acquireBufferGroup, hlt, acquired]
    have hreg : (acquireBufferGroup i s).1.registry = s.registry := by
      simp [acquireBufferGroup, hlt]
    have hmesh : (acquireBufferGroup i s).1.self.mesh = s.self.mesh := by
      simp [acquireBufferGroup, hlt]
    have hshader : (acquireBufferGroup i s).1.self.shader = s.self.shader := by
      simp [acquireBufferGroup, hlt]
    have hattr : (acquireBufferGroup i s).1.gl.attrib_locations = s.gl.attrib_locations := by
      simp [acquireBufferGroup, hlt]
    have hva : (acquireBufferGroup i s).1.gl.next_vertex_array = s.gl.next_vertex_array + 1 := by
      simp [acquireBufferGroup, hlt]
    have hbuf : (acquireBufferGroup i s).1.gl.next_buffer = s.gl.next_buffer + 2 := by
      simp [acquireBufferGroup, hlt]
    have hcalls : (acquireBufferGroup i s).1.gl.calls = s.gl.calls ++
        [⟨i, .glGenVertexArrays (newBufferGroup s).vao⟩, ⟨i, .glGenBuffers (newBufferGroup s).vbo⟩,
         ⟨i, .glGenBuffers (newBufferGroup s).ibo⟩] := by
      simp [acquireBufferGroup, hlt]
    have hupd : updateGroup m i s = some (fillBufferGroup i s.self.buffer_groups.length
        (newBufferGroup s) g
        ((acquireBufferGroup i s).1.glCall i (.glBindVertexArray (newBufferGroup s).vao))) := by
      rw [updateGroup, hacq]
      simp only [hg]
    refine ⟨_, hupd, ?_⟩
    obtain ⟨seg, hseg, hok, hinf⟩ := hF.calls
    refine ⟨hF.mesh.trans hmesh, hF.shader.trans hshader, ?_, hF.settled, ?_,
      hF.attrib.trans hattr, ?_, ?_, ?_⟩
    · have := hF.ext
      simp only [glCall_registry, hreg] at this
      exact this
    · rw [hF.groups]
      simp only [glCall_self, hbg]
      rw [← hlen]
    · rw [hF.vertex_array]; simp [hlt, hva]
    · rw [hF.buffer]; simp [hlt, hbuf]
    · refine ⟨[⟨i, .glGenVertexArrays (newBufferGroup s).vao⟩,
        ⟨i, .glGenBuffers (newBufferGroup s).vbo⟩, ⟨i, .glGenBuffers (newBufferGroup s).ibo⟩,
        ⟨i, .glBindVertexArray (newBufferGroup s).vao⟩] ++ seg, ?_, ?_, ?_⟩
      · rw [hseg]; simp [hcalls]
      · intro e he
        simp only [List.cons_append, List.nil_append, List.mem_cons] at he
        rcases he with rfl | rfl | rfl | rfl | he
        · simp [EventOk, GLCall.isGen, GLCall.isVertexUpload, GLCall.isAttribConfig,
            GLCall.isIndexUpload, hlen]
        · simp [EventOk, GLCall.isGen, GLCall.isVertexUpload, GLCall.isAttribConfig,
            GLCall.isIndexUpload, hlen]
        · simp [EventOk, GLCall.isGen, GLCall.isVertexUpload, GLCall.isAttribConfig,
            GLCall.isIndexUpload, hlen]
        · simp [EventOk, GLCall.isGen, GLCall.isVertexUpload, GLCall.isAttribConfig,
            GLCall.isIndexUpload]
        · exact hok e he
      · intro h b hb
        have : b = newBufferGroup s := by
          simp only [acquired, hlt, if_false] at hb
          rw [hlen, List.getElem?_append_right (le_refl _)] at hb
          simpa using hb.symm
        subst this
        exact (hinf h).trans (List.suffix_append _ _).isInfix

theorem updateGroup_expired (m : Mesh) (i : Nat) (s : State) (hg : m.GetMeshGroup i = none) :
    updateGroup m i s = none := by
  simp only [updateGroup, hg]

theorem updateGroup_live (m : Mesh) (i : Nat) (s s1 : State) (h : updateGroup m i s = some s1) :
    ∃ g, m.GetMeshGroup i = some g := by
  cases hg : m.GetMeshGroup i with
  | none => rw [updateGroup_expired m i s hg] at h; cases h
  | some g => exact ⟨g, rfl⟩

theorem filled_ident (r : ResourceMap) (g : MeshGroup) (b : BufferGroup) :
    (filled r g b).ident = b.ident := rfl

theorem map_ident_modify (r : ResourceMap) (g : MeshGroup) (l : List BufferGroup) (i : Nat) :
    (l.modify (filled r g) i).map BufferGroup.ident = l.map BufferGroup.ident := by
  apply List.ext_getElem?
  intro n
  simp only [List.getElem?_map, List.getElem?_modify]
  cases l[n]? with
  | none => rfl
  | some b => by_cases h : i = n <;> simp [h, filled_ident]

theorem acquired_getElem?_of_lt (i j : Nat) (s : State) (hj : j < s.self.buffer_groups.length) :
    (acquired i s)[j]? = s.self.buffer_groups[j]? := by
  unfold acquired
  split
  · rfl
  · rw [List.getElem?_append_left hj]

theorem acquired_getElem?_of_gt (i j : Nat) (s : State) (hi : i ≤ s.self.buffer_groups.length)
    (hj : i < j) : (acquired i s)[j]? = s.self.buffer_groups[j]? := by
  unfold acquired
  split
  · rfl
  · have h1 : s.self.buffer_groups.length + 1 ≤ j := by omega
    rw [List.getElem?_eq_none (by simp; omega), List.getElem?_eq_none (by omega)]

theorem acquired_getElem?_self (i : Nat) (s : State) (hi : i ≤ s.self.buffer_groups.length) :
    ∃ b, (acquired i s)[i]? = some b ∧ b.textures = texturesAt s i ∧
      b.ibo_count = indexCountAt s i := by
  by_cases hlt : i < s.self.buffer_groups.length
  · refine ⟨s.self.buffer_groups[i], ?_, ?_, ?_⟩
    · simp [acquired, hlt, List.getElem?_eq_getElem hlt]
    · simp [texturesAt, List.getElem?_eq_getElem hlt]
    · simp [indexCountAt, List.getElem?_eq_getElem hlt]
  · have hlen : i = s.self.buffer_groups.length := by omega
    refine ⟨newBufferGroup s, ?_, ?_, ?_⟩
    · simp only [acquired, hlt, if_false]
      rw [hlen, List.getElem?_append_right (le_refl _)]
      simp
    · simp [texturesAt, List.getElem?_eq_none (Nat.le_of_eq hlen.symm), newBufferGroup]
    · simp [indexCountAt, List.getElem?_eq_none (Nat.le_of_eq hlen.symm), newBufferGroup]

theorem GroupSpec.getElem?_ne {i : Nat} {g : MeshGroup} {s s1 : State} (h : GroupSpec i g s s1)
    (hi : i ≤ s.self.buffer_groups.length) (j : Nat) (hj : j ≠ i) :
    s1.self.buffer_groups[j]? = s.self.buffer_groups[j]? := by
  rw [h.groups, List.getElem?_modify_ne _ _ (Ne.symm hj)]
  rcases Nat.lt_or_gt_of_ne hj with hlt | hgt
  · exact acquired_getElem?_of_lt i j s (by omega)
  · exact acquired_getElem?_of_gt i j s hi hgt

theorem GroupSpec.getElem?_self {i : Nat} {g : MeshGroup} {s s1 : State} (h : GroupSpec i g s s1)
    (hi : i ≤ s.self.buffer_groups.length) :
    ∃ b, (acquired i s)[i]? = some b ∧ s1.self.buffer_groups[i]? = some (filled s1.registry g b) ∧
      b.textures = texturesAt s i ∧ b.ibo_count = indexCountAt s i := by
  obtain ⟨b, hb, ht, hc⟩ := acquired_getElem?_self i s hi
  refine ⟨b, hb, ?_, ht, hc⟩
  rw [h.groups, List.getElem?_modify_eq, hb]
  rfl

theorem GroupSpec.length {i : Nat} {g : MeshGroup} {s s1 : State} (h : GroupSpec i g s s1) :
    s1.self.buffer_groups.length =
      if i < s.self.buffer_groups.length then s.self.buffer_groups.length
      else s.self.buffer_groups.length + 1 := by
  rw [h.groups, List.length_modify]
  unfold acquired
  split <;> simp

theorem GroupSpec.ident {i : Nat} {g : MeshGroup} {s s1 : State} (h : GroupSpec i g s s1) :
    s.self.buffer_groups.map BufferGroup.ident <+: s1.self.buffer_groups.map BufferGroup.ident := by
  rw [h.groups, map_ident_modify]
  unfold acquired
  split
  · exact List.prefix_refl _
  · rw [List.map_append]
    exact List.prefix_append _ _

theorem RegExt.get_eq_of_settled {r r1 : ResourceMap} (h : RegExt r r1) {names : List String}
    (hs : Settled r names) : ∀ n ∈ names, r1.GetTexture n = r.GetTexture n := by
  intro n hn
  cases hq : r.GetTexture n with
  | some t => exact h.keep n t hq
  | none => exact h.absent n hq (hs n hn hq)

theorem RegExt.filterMap_eq {r r1 : ResourceMap} (h : RegExt r r1) {names : List String}
    (hs : Settled r names) :
    names.filterMap r1.GetTexture = names.filterMap r.GetTexture := by
  have hq := h.get_eq_of_settled hs
  clear hs
  induction names with
  | nil => rfl
  | cons n rest ih =>
    have h1 := hq n (List.mem_cons_self _ _)
    have h2 := ih (fun k hk => hq k (List.mem_cons_of_mem _ hk))
    simp only [List.filterMap_cons, h1, h2]

theorem RegExt.settled {r r1 : ResourceMap} (h : RegExt r r1) {names : List String}
    (hs : Settled r names) : Settled r1 names := by
  intro n hn hq
  rw [h.pixel_files]
  rw [h.get_eq_of_settled hs n hn] at hq
  exact hs n hn hq

/-! ### The loop -/

theorem texturesAt_congr {s s1 : State} {j : Nat}
    (h : s1.self.buffer_groups[j]? = s.self.buffer_groups[j]?) :
    texturesAt s1 j = texturesAt s j := by
  simp only [texturesAt, h]

theorem indexCountAt_congr {s s1 : State} {j : Nat}
    (h : s1.self.buffer_groups[j]? = s.self.buffer_groups[j]?) :
    indexCountAt s1 j = indexCountAt s j := by
  simp only [indexCountAt, h]

theorem LoopInv.init (m : Mesh) (s0 : State) : LoopInv m s0 0 s0 where
  mesh := rfl
  shader := rfl
  ext := RegExt.refl _
  settled := fun j hj => absurd hj (Nat.not_lt_zero j)
  len := by simp
  ident := List.prefix_refl _
  untouched := fun _ _ => rfl
  tex := fun j hj => absurd hj (Nat.not_lt_zero j)
  count := fun j hj => absurd hj (Nat.not_lt_zero j)
  attrib := rfl
  vertex_array := by simp
  buffer := by simp
  calls := ⟨[], by simp, by simp, fun j hj => absurd hj (Nat.not_lt_zero j)⟩

theorem LoopInv.le_length {m : Mesh} {s0 s : State} {n : Nat} (h : LoopInv m s0 n s) :
    n ≤ s.self.buffer_groups.length := by
  rw [h.len]; exact le_max_right _ _

theorem LoopInv.step {m : Mesh} {s0 s s1 : State} {n : Nat} {g : MeshGroup}
    (h : LoopInv m s0 n s) (hg : m.GetMeshGroup n = some g) (hs : GroupSpec n g s s1) :
    LoopInv m s0 (n + 1) s1 := by
  have hn := h.le_length
  have hlen := h.len
  obtain ⟨b, hb, hb1, hbt, hbc⟩ := hs.getElem?_self hn
  have hun := h.untouched n (le_refl _)
  refine
    { mesh := hs.mesh.trans h.mesh
      shader := hs.shader.trans h.shader
      ext := h.ext.trans hs.ext
      settled := ?_
      len := ?_
      ident := h.ident.trans hs.ident
      untouched := ?_
      tex := ?_
      count := ?_
      attrib := hs.attrib.trans h.attrib
      vertex_array := ?_
      buffer := ?_
      calls := ?_ }
  · intro j hj gj hgj
    rcases Nat.lt_succ_iff_lt_or_eq.1 hj with hlt | rfl
    · exact hs.ext.settled (h.settled j hlt gj hgj)
    · rw [hg] at hgj; cases hgj; exact hs.settled
  · rw [hs.length, hlen]
    split <;> omega
  · intro j hj
    rw [hs.getElem?_ne hn j (by omega)]
    exact h.untouched j (by omega)
  · intro j hj gj hgj
    rcases Nat.lt_succ_iff_lt_or_eq.1 hj with hlt | rfl
    · rw [texturesAt_congr (hs.getElem?_ne hn j (by omega)), h.tex j hlt gj hgj,
        hs.ext.filterMap_eq (h.settled j hlt gj hgj)]
    · rw [hg] at hgj; cases hgj
      have : texturesAt s1 j = (filled s1.registry g b).textures := by
        simp only [texturesAt, hb1]
      rw [this, ← texturesAt_congr hun, ← hbt]
      rfl
  · intro j hj gj hgj
    rcases Nat.lt_succ_iff_lt_or_eq.1 hj with hlt | rfl
    · rw [indexCountAt_congr (hs.getElem?_ne hn j (by omega)), h.count j hlt gj hgj]
    · rw [hg] at hgj; cases hgj
      have : indexCountAt s1 j = (filled s1.registry g b).ibo_count := by
        simp only [indexCountAt, hb1]
      rw [this, ← indexCountAt_congr hun, ← hbc]
      rfl
  · rw [hs.vertex_array, h.vertex_array, hlen]
    split <;> omega
  · rw [hs.buffer, h.buffer, hlen]
    split <;> omega
  · obtain ⟨seg, hseg, hok, hinf⟩ := h.calls
    obtain ⟨segn, hsegn, hokn, hinfn⟩ := hs.calls
    refine ⟨seg ++ segn, by rw [hsegn, hseg, List.append_assoc], ?_, ?_⟩
    · intro e he
      rcases List.mem_append.1 he with he | he
      · obtain ⟨h1, h2⟩ := hok e he
        exact ⟨by omega, h2⟩
      · obtain ⟨h1, h2, h3, h4⟩ := hokn e he
        refine ⟨by omega, g, by rw [h1]; exact hg, rfl, ?_, h3, h4⟩
        intro hgen
        have := h2 hgen
        rw [h1]
        omega
    · intro j hj gj hgj hpos bj hbj
      rcases Nat.lt_succ_iff_lt_or_eq.1 hj with hlt | rfl
      · rw [hs.getElem?_ne hn j (by omega)] at hbj
        exact (hinf j hlt gj hgj hpos bj hbj).trans (List.prefix_append _ _).isInfix
      · rw [hg] at hgj; cases hgj
        rw [hb1] at hbj
        cases hbj
        exact (hinfn hpos b hb).trans (List.suffix_append _ _).isInfix

theorem updateLoop_append (m : Mesh) (l1 l2 : List Nat) (s : State) :
    updateLoop m (l1 ++ l2) s = (updateLoop m l1 s).bind (updateLoop m l2) := by
  induction l1 generalizing s with
  | nil => rfl
  | cons i rest ih =>
    simp only [List.cons_append, updateLoop]
    cases updateGroup m i s with
    | none => rfl
    | some s1 => exact ih s1

theorem updateLoop_range_succ (m : Mesh) (n : Nat) (s : State) :
    updateLoop m (List.range (n + 1)) s =
      (updateLoop m (List.range n) s).bind (updateGroup m n) := by
  rw [List.range_succ, updateLoop_append]
  congr 1
  funext s1
  simp only [updateLoop]
  cases updateGroup m n s1 <;> rfl

theorem updateLoop_total (m : Mesh) (s0 : State) (n : Nat)
    (hlive : ∀ j, j < n → ∃ g, m.GetMeshGroup j = some g) :
    ∃ s, updateLoop m (List.range n) s0 = some s ∧ LoopInv m s0 n s := by
  induction n with
  | zero => exact ⟨s0, rfl, LoopInv.init m s0⟩
  | succ n ih =>
    obtain ⟨s, hs, hinv⟩ := ih (fun j hj => hlive j (by omega))
    obtain ⟨g, hg⟩ := hlive n (by omega)
    obtain ⟨s1, hs1, hspec⟩ := updateGroup_spec m n g s hinv.le_length hg
    exact ⟨s1, by rw [updateLoop_range_succ, hs]; exact hs1, hinv.step hg hspec⟩

theorem updateLoop_live (m : Mesh) (s0 s : State) (n : Nat)
    (h : updateLoop m (List.range n) s0 = some s) :
    ∀ j, j < n → ∃ g, m.GetMeshGroup j = some g := by
  induction n generalizing s with
  | zero => intro j hj; omega
  | succ n ih =>
    rw [updateLoop_range_succ] at h
    cases hp : updateLoop m (List.range n) s0 with
    | none => rw [hp] at h; cases h
    | some sp =>
      rw [hp] at h
      intro j hj
      rcases Nat.lt_succ_iff_lt_or_eq.1 hj with hlt | rfl
      · exact ih sp hp j hlt
      · exact updateGroup_live m j sp s h

theorem updateLoop_expired (m : Mesh) (s0 : State) (n j : Nat) (hj : j < n)
    (hg : m.GetMeshGroup j = none) : updateLoop m (List.range n) s0 = none := by
  cases h : updateLoop m (List.range n) s0 with
  | none => rfl
  | some s =>
    obtain ⟨g, hg1⟩ := updateLoop_live m s0 s n h j hj
    rw [hg] at hg1; cases hg1

theorem updateLoop_inv (m : Mesh) (s0 s : State) (n : Nat)
    (h : updateLoop m (List.range n) s0 = some s) : LoopInv m s0 n s := by
  obtain ⟨s1, hs1, hinv⟩ := updateLoop_total m s0 n (updateLoop_live m s0 s n h)
  rw [h] at hs1
  cases hs1
  exact hinv


/-! ### The whole call -/

theorem Mesh.GetMeshGroup_lt {m : Mesh} {i : Nat} {g : MeshGroup}
    (h : m.GetMeshGroup i = some g) : i < m.GetMeshGroupCount := by
  unfold Mesh.GetMeshGroup at h
  unfold Mesh.GetMeshGroupCount
  by_contra hn
  rw [List.getElem?_eq_none (by omega)] at h
  cases h

theorem Mesh.live_getMeshGroup {m : Mesh} (h : m.live = true) (j : Nat)
    (hj : j < m.GetMeshGroupCount) : ∃ g, m.GetMeshGroup j = some g := by
  unfold Mesh.live at h
  unfold Mesh.GetMeshGroupCount at hj
  rw [List.all_eq_true] at h
  have := h _ (List.getElem_mem hj)
  unfold Mesh.GetMeshGroup
  rw [List.getElem?_eq_getElem hj]
  cases hx : m.mesh_groups[j] with
  | none => rw [hx] at this; cases this
  | some g => exact ⟨g, rfl⟩

theorem callsSince_eq {s s1 : State} {seg : List GLEvent} (h : s1.gl.calls = s.gl.calls ++ seg) :
    callsSince s s1 = seg := by
  simp [callsSince, h]

theorem UpdateBufferGroups_no_mesh (s : State) (hm : s.self.mesh = none) :
    UpdateBufferGroups s = some s := by
  simp only [UpdateBufferGroups, hm]

theorem UpdateBufferGroups_spec (s : State) (m : Mesh) (hm : s.self.mesh = some m)
    (hl : m.live = true) :
    ∃ s1, UpdateBufferGroups s = some s1 ∧ LoopInv m s m.GetMeshGroupCount s1 := by
  simp only [UpdateBufferGroups, hm]
  exact updateLoop_total m s _ (Mesh.live_getMeshGroup hl)

theorem UpdateBufferGroups_inv (s s1 : State) (m : Mesh) (hm : s.self.mesh = some m)
    (h : UpdateBufferGroups s = some s1) : LoopInv m s m.GetMeshGroupCount s1 := by
  simp only [UpdateBufferGroups, hm] at h
  exact updateLoop_inv m s s1 _ h

theorem UpdateBufferGroups_expired (s : State) (m : Mesh) (j : Nat)
    (hm : s.self.mesh = some m) (hj : j < m.GetMeshGroupCount) (hg : m.GetMeshGroup j = none) :
    UpdateBufferGroups s = none := by
  simp only [UpdateBufferGroups, hm]
  exact updateLoop_expired m s _ j hj hg

theorem LoopInv.getElem?_ident {m : Mesh} {s0 s : State} {n : Nat} (h : LoopInv m s0 n s)
    {j : Nat} {b0 : BufferGroup} (hb : s0.self.buffer_groups[j]? = some b0) :
    ∃ b, s.self.buffer_groups[j]? = some b ∧ b.ident = b0.ident := by
  obtain ⟨t, ht⟩ := h.ident
  have h1 : (s.self.buffer_groups.map BufferGroup.ident)[j]? = some b0.ident := by
    rw [← ht]
    have hj : j < (s0.self.buffer_groups.map BufferGroup.ident).length := by
      rw [List.length_map]
      by_contra hn
      rw [List.getElem?_eq_none (by omega)] at hb
      cases hb
    rw [List.getElem?_append_left hj, List.getElem?_map, hb]
    rfl
  rw [List.getElem?_map] at h1
  cases hx : s.self.buffer_groups[j]? with
  | none => rw [hx] at h1; cases h1
  | some b =>
    rw [hx] at h1
    exact ⟨b, rfl, Option.some.inj h1⟩

/-! ### Initialize -/

theorem Initialize_missing_mesh_eq (properties : List Property) (s : State)
    (h : s.registry.GetMesh (propertyNames properties).1 = none) :
    Initialize properties s = some (false, SetMesh none s) := by
  simp only [Initialize, SetMesh, h]

theorem Initialize_missing_shader_eq (properties : List Property) (s : State) (m : Mesh)
    (h : s.registry.GetMesh (propertyNames properties).1 = some m)
    (hs : s.registry.GetShader (propertyNames properties).2 = none) :
    Initialize properties s = some (false, SetShader none (SetMesh (some m) s)) := by
  simp only [Initialize, SetMesh, SetShader, h, hs]

theorem Initialize_resolved_eq (properties : List Property) (s : State) (m : Mesh) (sh : Shader)
    (h : s.registry.GetMesh (propertyNames properties).1 = some m)
    (hs : s.registry.GetShader (propertyNames properties).2 = some sh) :
    Initialize properties s =
      (UpdateBufferGroups (SetShader (some sh) (SetMesh (some m) s))).map (fun s1 => (true, s1)) := by
  simp only [Initialize, SetMesh, SetShader, h, hs]
  cases UpdateBufferGroups _ <;> rfl

theorem filterMap_sublist_of_keep {f f1 : String → Option Texture}
    (h : ∀ n t, f n = some t → f1 n = some t) (l : List String) :
    (l.filterMap f).Sublist (l.filterMap f1) := by
  induction l with
  | nil => exact List.Sublist.refl _
  | cons n rest ih =>
    cases hf : f n with
    | none =>
      rw [List.filterMap_cons_none hf]
      cases hf1 : f1 n with
      | none => rw [List.filterMap_cons_none hf1]; exact ih
      | some t => rw [List.filterMap_cons_some hf1]; exact List.Sublist.cons _ ih
    | some t =>
      rw [List.filterMap_cons_some hf, List.filterMap_cons_some (h n t hf)]
      exact List.Sublist.cons₂ _ ih

theorem length_filterMap_eq_filter {f : String → Option Texture} {p : String → Bool}
    (l : List String) (h : ∀ n ∈ l, (f n).isSome = p n) :
    (l.filterMap f).length = (l.filter p).length := by
  induction l with
  | nil => rfl
  | cons n rest ih =>
    have h1 := h n (List.mem_cons_self _ _)
    have h2 := ih (fun k hk => h k (List.mem_cons_of_mem _ hk))
    cases hf : f n with
    | none =>
      rw [hf] at h1
      rw [List.filterMap_cons_none hf, List.filter_cons_of_neg (by rw [← h1]; simp), h2]
    | some t =>
      rw [hf] at h1
      rw [List.filterMap_cons_some hf, List.filter_cons_of_pos (by rw [← h1]; simp),
        List.length_cons, List.length_cons, h2]

theorem resolves_eq_false {r : ResourceMap} {n : String} (h : r.resolves n = false) :
    r.GetTexture n = none ∧ r.pixel_files.lookup n = none := by
  simp only [ResourceMap.resolves, CreatePixelBuffer_filename, Bool.or_eq_false_iff] at h
  constructor
  · cases hq : r.GetTexture n with
    | none => rfl
    | some t => rw [hq] at h; simp at h
  · cases hq : r.pixel_files.lookup n with
    | none => rfl
    | some t => rw [hq] at h; simp at h

theorem LoopInv.isSome_eq_resolves {m : Mesh} {s0 s : State} {n : Nat} (h : LoopInv m s0 n s)
    {j : Nat} (hj : j < n) {g : MeshGroup} (hg : m.GetMeshGroup j = some g) :
    ∀ k ∈ g.textures, (s.registry.GetTexture k).isSome = s0.registry.resolves k := by
  intro k hk
  cases hr : s0.registry.resolves k with
  | false =>
    obtain ⟨h1, h2⟩ := resolves_eq_false hr
    rw [h.ext.absent k h1 h2]
    rfl
  | true =>
    cases hq : s.registry.GetTexture k with
    | some t => rfl
    | none =>
      exfalso
      have hp := h.settled j hj g hg k hk hq
      rw [h.ext.pixel_files] at hp
      have h0 : s0.registry.GetTexture k = none := by
        cases h0 : s0.registry.GetTexture k with
        | none => rfl
        | some t => rw [h.ext.keep k t h0] at hq; cases hq
      simp [ResourceMap.resolves, CreatePixelBuffer_filename, h0, hp] at hr

theorem Initialize_of_live (properties : List Property) (s : State) (m : Mesh) (sh : Shader)
    (h : s.registry.GetMesh (propertyNames properties).1 = some m)
    (hs : s.registry.GetShader (propertyNames properties).2 = some sh) (hl : m.live = true) :
    ∃ s1, Initialize properties s = some (true, s1) := by
  obtain ⟨s1, h1, _⟩ := UpdateBufferGroups_spec (SetShader (some sh) (SetMesh (some m) s)) m rfl hl
  exact ⟨s1, by rw [Initialize_resolved_eq properties s m sh h hs, h1]; rfl⟩

theorem Initialize_of_expired (properties : List Property) (s : State) (m : Mesh) (sh : Shader)
    (h : s.registry.GetMesh (propertyNames properties).1 = some m)
    (hs : s.registry.GetShader (propertyNames properties).2 = some sh) (j : Nat)
    (hj : j < m.GetMeshGroupCount) (hg : m.GetMeshGroup j = none) :
    Initialize properties s = none := by
  rw [Initialize_resolved_eq properties s m sh h hs,
    UpdateBufferGroups_expired (SetShader (some sh) (SetMesh (some m) s)) m j rfl hj hg]
  rfl

/-! ## The claims -/

/-- C2: when the name left by the `"mesh"` property is not in the registry, `Initialize`
returns false, the buffer groups are the ones held before the call (none for a freshly
constructed Renderable), and the OpenGL context is untouched: no handle is generated
and no call, hence no upload, is logged. -/
theorem Initialize_missing_mesh (properties : List Property) (s : State)
    (h : s.registry.GetMesh (propertyNames properties).1 = none) :
    ∃ s1, Initialize properties s = some (false, s1) ∧
      s1.self.buffer_groups = s.self.buffer_groups ∧
      (s.self = Renderable.new → s1.self.buffer_groups = []) ∧
      s1.gl = s.gl ∧ callsSince s s1 = [] :=
  ⟨SetMesh none s, Initialize_missing_mesh_eq properties s h, rfl,
    fun hs => by rw [SetMesh, hs]; rfl, rfl, by simp [callsSince, SetMesh]⟩

theorem Initialize_missing_mesh_witness :
    sampleState.registry.GetMesh (propertyNames [⟨"mesh", "nowhere"⟩, ⟨"shader", "basic"⟩]).1 = none ∧
    ∃ s1, Initialize [⟨"mesh", "nowhere"⟩, ⟨"shader", "basic"⟩] sampleState = some (false, s1) ∧
      s1.self.buffer_groups = sampleState.self.buffer_groups ∧
      (sampleState.self = Renderable.new → s1.self.buffer_groups = []) ∧
      s1.gl = sampleState.gl ∧ callsSince sampleState s1 = [] :=
  ⟨by decide, Initialize_missing_mesh _ sampleState (by decide)⟩

/-- C3: for a mesh with N groups that all lock, `UpdateBufferGroups` leaves at least N
buffer groups, and a second call on the unchanged mesh keeps their number, keeps at
every index below N the same object with the same three handles, and generates no
handle. -/
theorem UpdateBufferGroups_twice (s : State) (m : Mesh) (hm : s.self.mesh = some m)
    (hl : m.live = true) :
    ∃ s1 s2, UpdateBufferGroups s = some s1 ∧ UpdateBufferGroups s1 = some s2 ∧
      m.GetMeshGroupCount ≤ s1.self.buffer_groups.length ∧
      s2.self.buffer_groups.length = s1.self.buffer_groups.length ∧
      (∀ i, i < m.GetMeshGroupCount → ∃ b1 b2, s1.self.buffer_groups[i]? = some b1 ∧
        s2.self.buffer_groups[i]? = some b2 ∧ b2.addr = b1.addr ∧ b2.vao = b1.vao ∧
        b2.vbo = b1.vbo ∧ b2.ibo = b1.ibo) ∧
      s2.gl.next_vertex_array = s1.gl.next_vertex_array ∧
      s2.gl.next_buffer = s1.gl.next_buffer ∧
      (∀ e ∈ callsSince s1 s2, e.call.isGen = false) := by
  obtain ⟨s1, h1, inv1⟩ := UpdateBufferGroups_spec s m hm hl
  obtain ⟨s2, h2, inv2⟩ := UpdateBufferGroups_spec s1 m (inv1.mesh.trans hm) hl
  have hle := inv1.le_length
  refine ⟨s1, s2, h1, h2, hle, ?_, ?_, ?_, ?_, ?_⟩
  · rw [inv2.len]; exact max_eq_left hle
  · intro i hi
    have hlt : i < s1.self.buffer_groups.length := by omega
    obtain ⟨b2, hb2, hid⟩ := inv2.getElem?_ident (List.getElem?_eq_getElem hlt)
    simp only [BufferGroup.ident, Prod.mk.injEq] at hid
    exact ⟨_, b2, List.getElem?_eq_getElem hlt, hb2, hid.1, hid.2.1, hid.2.2.1, hid.2.2.2⟩
  · rw [inv2.vertex_array, max_eq_left hle]; omega
  · rw [inv2.buffer, max_eq_left hle]; omega
  · obtain ⟨seg, hseg, hok, _⟩ := inv2.calls
    rw [callsSince_eq hseg]
    intro e he
    obtain ⟨hlt, g, _, _, hgen, _⟩ := hok e he
    cases hc : e.call.isGen with
    | false => rfl
    | true => have := hgen hc; omega

theorem UpdateBufferGroups_twice_witness :
    ∃ s1 s2, UpdateBufferGroups (SetMesh (some quadMesh) sampleState) = some s1 ∧
      UpdateBufferGroups s1 = some s2 ∧
      quadMesh.GetMeshGroupCount ≤ s1.self.buffer_groups.length ∧
      s2.self.buffer_groups.length = s1.self.buffer_groups.length ∧
      (∀ i, i < quadMesh.GetMeshGroupCount → ∃ b1 b2, s1.self.buffer_groups[i]? = some b1 ∧
        s2.self.buffer_groups[i]? = some b2 ∧ b2.addr = b1.addr ∧ b2.vao = b1.vao ∧
        b2.vbo = b1.vbo ∧ b2.ibo = b1.ibo) ∧
      s2.gl.next_vertex_array = s1.gl.next_vertex_array ∧
      s2.gl.next_buffer = s1.gl.next_buffer ∧
      (∀ e ∈ callsSince s1 s2, e.call.isGen = false) :=
  UpdateBufferGroups_twice (SetMesh (some quadMesh) sampleState) quadMesh rfl (by decide)

/-- C1: with the mesh name and the shader name both resolving, `Initialize` does not
return true when a group reference of the mesh has expired: `UpdateBufferGroups`
dereferences the empty pointer (line 38) and the call does not return. -/
theorem Initialize_expired_group_faults :
    sampleRegistry.GetMesh "expired" = some expiredMesh ∧
    sampleRegistry.GetShader "basic" = some { program := 7 } ∧
    Initialize [⟨"mesh", "expired"⟩, ⟨"shader", "basic"⟩] sampleState = none := by
  decide

/-- C9: with the first group reference expired and the second one live,
`UpdateBufferGroups` does not skip the expired group and go on: it dereferences the
empty pointer (line 38, before the guard of line 55) and does not return. -/
theorem UpdateBufferGroups_expired_group_faults :
    expiredMesh.GetMeshGroup 0 = none ∧ expiredMesh.GetMeshGroup 1 = some quadGroup ∧
    UpdateBufferGroups (SetMesh (some expiredMesh) sampleState) = none := by
  decide

/-- On a mesh whose group references all lock, `UpdateBufferGroups`
appends to the texture
list of buffer group `i` the textures found under the names of mesh group `i`, name by
name in the order of the names; a name that was registered before the call yields
exactly the texture registered under it, so the textures registered beforehand
appear among the appended ones in the order of their names. -/
theorem UpdateBufferGroups_registered_textures (s : State) (m : Mesh)
    (hm : s.self.mesh = some m) (hl : m.live = true) :
    ∃ s1, UpdateBufferGroups s = some s1 ∧
      (∀ n t, s.registry.GetTexture n = some t → s1.registry.GetTexture n = some t) ∧
      ∀ i g, m.GetMeshGroup i = some g →
        texturesAt s1 i = texturesAt s i ++ g.textures.filterMap s1.registry.GetTexture ∧
        (g.textures.filterMap s.registry.GetTexture).Sublist
          (g.textures.filterMap s1.registry.GetTexture) ∧
        ((∀ n ∈ g.textures, (s.registry.GetTexture n).isSome = true) →
          texturesAt s1 i = texturesAt s i ++ g.textures.filterMap s.registry.GetTexture) := by
  obtain ⟨s1, h1, inv⟩ := UpdateBufferGroups_spec s m hm hl
  refine ⟨s1, h1, inv.ext.keep, ?_⟩
  intro i g hg
  have htex := inv.tex i (Mesh.GetMeshGroup_lt hg) g hg
  refine ⟨htex, filterMap_sublist_of_keep inv.ext.keep _, ?_⟩
  intro hall
  rw [htex, inv.ext.filterMap_eq]
  intro n hn hq
  have := hall n hn
  rw [hq] at this
  cases this

theorem UpdateBufferGroups_registered_textures_witness :
    ∃ s1, UpdateBufferGroups (SetMesh (some quadMesh) sampleState) = some s1 ∧
      (∀ n t, (SetMesh (some quadMesh) sampleState).registry.GetTexture n = some t →
        s1.registry.GetTexture n = some t) ∧
      ∀ i g, quadMesh.GetMeshGroup i = some g →
        texturesAt s1 i = texturesAt (SetMesh (some quadMesh) sampleState) i ++
          g.textures.filterMap s1.registry.GetTexture ∧
        (g.textures.filterMap
            (SetMesh (some quadMesh) sampleState).registry.GetTexture).Sublist
          (g.textures.filterMap s1.registry.GetTexture) ∧
        ((∀ n ∈ g.textures,
            ((SetMesh (some quadMesh) sampleState).registry.GetTexture n).isSome = true) →
          texturesAt s1 i = texturesAt (SetMesh (some quadMesh) sampleState) i ++
            g.textures.filterMap (SetMesh (some quadMesh) sampleState).registry.GetTexture) :=
  UpdateBufferGroups_registered_textures (SetMesh (some quadMesh) sampleState) quadMesh rfl
    (by decide)

/-- On a mesh whose group references all lock, `UpdateBufferGroups`
returns; a name that
neither is registered nor can be created is not registered afterwards and adds no
texture: buffer group `i` gains exactly one texture per name of mesh group `i` that
resolves, which is fewer than the number of names as soon as one name fails. -/
theorem UpdateBufferGroups_unresolved_textures (s : State) (m : Mesh)
    (hm : s.self.mesh = some m) (hl : m.live = true) :
    ∃ s1, UpdateBufferGroups s = some s1 ∧
      (∀ n, s.registry.resolves n = false → s1.registry.GetTexture n = none) ∧
      ∀ i g, m.GetMeshGroup i = some g →
        texturesAt s1 i = texturesAt s i ++
          (g.textures.filter s.registry.resolves).filterMap s1.registry.GetTexture ∧
        (texturesAt s1 i).length =
          (texturesAt s i).length + (g.textures.filter s.registry.resolves).length ∧
        ((∃ n ∈ g.textures, s.registry.resolves n = false) →
          (texturesAt s1 i).length < (texturesAt s i).length + g.textures.length) := by
  obtain ⟨s1, h1, inv⟩ := UpdateBufferGroups_spec s m hm hl
  refine ⟨s1, h1, ?_, ?_⟩
  · intro n hn
    obtain ⟨ha, hb⟩ := resolves_eq_false hn
    exact inv.ext.absent n ha hb
  · intro i g hg
    have hi := Mesh.GetMeshGroup_lt hg
    have htex := inv.tex i hi g hg
    have hres := inv.isSome_eq_resolves hi hg
    have hlen : (texturesAt s1 i).length =
        (texturesAt s i).length + (g.textures.filter s.registry.resolves).length := by
      rw [htex, List.length_append, length_filterMap_eq_filter _ hres]
    refine ⟨?_, hlen, ?_⟩
    · rw [htex]
      congr 1
      rw [← List.filterMap_eq_filter, List.filterMap_filterMap]
      apply List.filterMap_congr
      intro n hn
      have := hres n hn
      cases hr : s.registry.resolves n with
      | true => simp [Option.guard, hr]
      | false =>
        rw [hr] at this
        cases hq : s1.registry.GetTexture n with
        | none => simp [Option.guard, hr, hq]
        | some t => rw [hq] at this; cases this
    · rintro ⟨n, hn, hr⟩
      rw [hlen]
      have : (g.textures.filter s.registry.resolves).length < g.textures.length :=
        List.length_filter_lt_length_iff_exists.2 ⟨n, hn, by simp [hr]⟩
      omega

theorem UpdateBufferGroups_unresolved_textures_witness :
    ∃ s1, UpdateBufferGroups (SetMesh (some decalMesh) sampleState) = some s1 ∧
      (∀ n, (SetMesh (some decalMesh) sampleState).registry.resolves n = false →
        s1.registry.GetTexture n = none) ∧
      ∀ i g, decalMesh.GetMeshGroup i = some g →
        texturesAt s1 i = texturesAt (SetMesh (some decalMesh) sampleState) i ++
          (g.textures.filter (SetMesh (some decalMesh) sampleState).registry.resolves).filterMap
            s1.registry.GetTexture ∧
        (texturesAt s1 i).length =
          (texturesAt (SetMesh (some decalMesh) sampleState) i).length +
            (g.textures.filter (SetMesh (some decalMesh) sampleState).registry.resolves).length ∧
        ((∃ n ∈ g.textures, (SetMesh (some decalMesh) sampleState).registry.resolves n = false) →
          (texturesAt s1 i).length <
            (texturesAt (SetMesh (some decalMesh) sampleState) i).length + g.textures.length) :=
  UpdateBufferGroups_unresolved_textures (SetMesh (some decalMesh) sampleState) decalMesh rfl
    (by decide)

/-- C7, the claim as stated fails: after the mesh is replaced by one whose group 0 has
no indices, the reused buffer group 0 still reports the 6 indices of the earlier mesh. -/
theorem zero_indices_keep_stale_count :
    smallMesh.GetMeshGroup 0 = some emptyGroup ∧ emptyGroup.indicies.length = 0 ∧
    (run [.SetMesh (some quadMesh), .UpdateBufferGroups, .SetMesh (some smallMesh),
        .UpdateBufferGroups] sampleState).map (fun s => indexCountAt s 0) = some 6 := by
  decide

/-- C7, amended: for a mesh group without vertices no vertex upload and no attribute
call is logged for its iteration; for a mesh group without indices no index upload is
logged for its iteration and the index count of its buffer group is the one it had
before the call, which is zero when the buffer group is allocated by this call. -/
theorem UpdateBufferGroups_empty_group (s : State) (m : Mesh) (hm : s.self.mesh = some m)
    (hl : m.live = true) :
    ∃ s1, UpdateBufferGroups s = some s1 ∧
      ∀ i g, m.GetMeshGroup i = some g →
        (g.verts.length = 0 → ∀ e ∈ callsSince s s1, e.group = i →
          e.call.isVertexUpload = false ∧ e.call.isAttribConfig = false) ∧
        (g.indicies.length = 0 →
          (∀ e ∈ callsSince s s1, e.group = i → e.call.isIndexUpload = false) ∧
          indexCountAt s1 i = indexCountAt s i ∧
          (s.self.buffer_groups.length ≤ i → indexCountAt s1 i = 0)) := by
  obtain ⟨s1, h1, inv⟩ := UpdateBufferGroups_spec s m hm hl
  refine ⟨s1, h1, ?_⟩
  intro i g hg
  obtain ⟨seg, hseg, hok, _⟩ := inv.calls
  rw [callsSince_eq hseg]
  have hcount := inv.count i (Mesh.GetMeshGroup_lt hg) g hg
  constructor
  · intro hv e he hei
    obtain ⟨_, g1, hg1, _, _, hvert, _⟩ := hok e he
    rw [hei, hg] at hg1
    cases hg1
    constructor
    · cases hc : e.call.isVertexUpload with
      | false => rfl
      | true => have := hvert (Or.inl hc); omega
    · cases hc : e.call.isAttribConfig with
      | false => rfl
      | true => have := hvert (Or.inr hc); omega
  · intro hz
    rw [if_neg (by omega)] at hcount
    refine ⟨?_, hcount, ?_⟩
    · intro e he hei
      obtain ⟨_, g1, hg1, _, _, _, hidx⟩ := hok e he
      rw [hei, hg] at hg1
      cases hg1
      cases hc : e.call.isIndexUpload with
      | false => rfl
      | true => have := hidx hc; omega
    · intro hle
      rw [hcount]
      simp [indexCountAt, List.getElem?_eq_none hle]

theorem UpdateBufferGroups_empty_group_witness :
    ∃ s1, UpdateBufferGroups (SetMesh (some quadMesh) sampleState) = some s1 ∧
      ∀ i g, quadMesh.GetMeshGroup i = some g →
        (g.verts.length = 0 → ∀ e ∈ callsSince (SetMesh (some quadMesh) sampleState) s1,
          e.group = i → e.call.isVertexUpload = false ∧ e.call.isAttribConfig = false) ∧
        (g.indicies.length = 0 →
          (∀ e ∈ callsSince (SetMesh (some quadMesh) sampleState) s1, e.group = i →
            e.call.isIndexUpload = false) ∧
          indexCountAt s1 i = indexCountAt (SetMesh (some quadMesh) sampleState) i ∧
          ((SetMesh (some quadMesh) sampleState).self.buffer_groups.length ≤ i →
            indexCountAt s1 i = 0)) :=
  UpdateBufferGroups_empty_group (SetMesh (some quadMesh) sampleState) quadMesh rfl (by decide)

/-- On a mesh whose group references all lock, `UpdateBufferGroups`
logs, for each mesh
group with at least one index, the binding of that group's index buffer followed by the
upload of the whole index sequence, and sets the index count to the number of indices.
In the scenario (a fresh Renderable initialised with a two-group mesh, group 0 with 4
vertices, 6 indices and one resolving texture name, group 1 empty) the result is two
buffer groups, the first with index count 6 and one texture, the second with index
count 0 and no texture. -/
theorem UpdateBufferGroups_index_upload :
    (∀ (s : State) (m : Mesh), s.self.mesh = some m → m.live = true →
      ∃ s1, UpdateBufferGroups s = some s1 ∧
        ∀ i g, m.GetMeshGroup i = some g → 0 < g.indicies.length →
          indexCountAt s1 i = g.indicies.length ∧
          ∃ b, s1.self.buffer_groups[i]? = some b ∧
            indexUpload i b.ibo g <:+: callsSince s s1) ∧
    (∀ (registry : ResourceMap) (gl : GLContext) (heap_next : Nat)
      (properties : List Property) (g0 : MeshGroup) (sh : Shader) (name : String),
      registry.GetMesh (propertyNames properties).1 =
        some { mesh_groups := [some g0, some emptyGroup] } →
      registry.GetShader (propertyNames properties).2 = some sh →
      g0.verts.length = 4 → g0.indicies.length = 6 → g0.textures = [name] →
      registry.resolves name = true →
      ∃ s1, Initialize properties
          { registry := registry, gl := gl, heap_next := heap_next, self := Renderable.new } =
            some (true, s1) ∧
        s1.self.buffer_groups.length = 2 ∧
        indexCountAt s1 0 = 6 ∧ (texturesAt s1 0).length = 1 ∧
        indexCountAt s1 1 = 0 ∧ texturesAt s1 1 = []) := by
  constructor
  · intro s m hm hl
    obtain ⟨s1, h1, inv⟩ := UpdateBufferGroups_spec s m hm hl
    refine ⟨s1, h1, ?_⟩
    intro i g hg hpos
    have hi := Mesh.GetMeshGroup_lt hg
    have hcount := inv.count i hi g hg
    rw [if_pos hpos] at hcount
    obtain ⟨seg, hseg, _, hinf⟩ := inv.calls
    have hlt : i < s1.self.buffer_groups.length := by
      have := inv.le_length
      omega
    refine ⟨hcount, _, List.getElem?_eq_getElem hlt, ?_⟩
    rw [callsSince_eq hseg]
    exact hinf i hi g hg hpos _ (List.getElem?_eq_getElem hlt)
  · intro registry gl heap_next properties g0 sh name hmesh hshader _ hidx htex hres
    have hq := Initialize_resolved_eq properties
      { registry := registry, gl := gl, heap_next := heap_next, self := Renderable.new }
      _ sh hmesh hshader
    obtain ⟨s1, h1, inv⟩ := UpdateBufferGroups_spec
      (SetShader (some sh) (SetMesh (some { mesh_groups := [some g0, some emptyGroup] })
        { registry := registry, gl := gl, heap_next := heap_next, self := Renderable.new }))
      { mesh_groups := [some g0, some emptyGroup] } rfl rfl
    rw [h1] at hq
    have h0 : (0 : Nat) < (Mesh.mk [some g0, some emptyGroup]).GetMeshGroupCount :=
      Nat.zero_lt_succ 1
    have h1lt : (1 : Nat) < (Mesh.mk [some g0, some emptyGroup]).GetMeshGroupCount :=
      Nat.lt_succ_self 1
    have hg0 : (Mesh.mk [some g0, some emptyGroup]).GetMeshGroup 0 = some g0 := rfl
    have hg1 : (Mesh.mk [some g0, some emptyGroup]).GetMeshGroup 1 = some emptyGroup := rfl
    refine ⟨s1, hq, ?_, ?_, ?_, ?_, ?_⟩
    · rw [inv.len]; rfl
    · have := inv.count 0 h0 g0 hg0
      rw [this, hidx]; rfl
    · have := inv.tex 0 h0 g0 hg0
      rw [this, List.length_append,
        length_filterMap_eq_filter _ (inv.isSome_eq_resolves h0 hg0), htex]
      simp [texturesAt, SetShader, SetMesh, Renderable.new, List.filter, hres]
    · have := inv.count 1 h1lt emptyGroup hg1
      rw [this]; rfl
    · have := inv.tex 1 h1lt emptyGroup hg1
      rw [this]; rfl

theorem UpdateBufferGroups_index_upload_witness :
    (∃ s1, UpdateBufferGroups (SetMesh (some quadMesh) sampleState) = some s1 ∧
        ∀ i g, quadMesh.GetMeshGroup i = some g → 0 < g.indicies.length →
          indexCountAt s1 i = g.indicies.length ∧
          ∃ b, s1.self.buffer_groups[i]? = some b ∧
            indexUpload i b.ibo g <:+: callsSince (SetMesh (some quadMesh) sampleState) s1) ∧
    (∃ s1, Initialize [⟨"mesh", "quad"⟩, ⟨"shader", "basic"⟩]
          { registry := sampleRegistry, gl := sampleState.gl, heap_next := 0,
            self := Renderable.new } = some (true, s1) ∧
        s1.self.buffer_groups.length = 2 ∧
        indexCountAt s1 0 = 6 ∧ (texturesAt s1 0).length = 1 ∧
        indexCountAt s1 1 = 0 ∧ texturesAt s1 1 = []) :=
  ⟨UpdateBufferGroups_index_upload.1 (SetMesh (some quadMesh) sampleState) quadMesh rfl
      (by decide),
    UpdateBufferGroups_index_upload.2 sampleRegistry sampleState.gl 0
      [⟨"mesh", "quad"⟩, ⟨"shader", "basic"⟩] quadGroup { program := 7 } "stone"
      (by decide) (by decide) (by decide) (by decide) (by decide) (by decide)⟩

theorem UpdateBufferGroups_ident (s s1 : State) (h : UpdateBufferGroups s = some s1) :
    s.self.buffer_groups.map BufferGroup.ident <+: s1.self.buffer_groups.map BufferGroup.ident := by
  cases hm : s.self.mesh with
  | none =>
    rw [UpdateBufferGroups_no_mesh s hm] at h
    cases h
    exact List.prefix_refl _
  | some m => exact (UpdateBufferGroups_inv s s1 m hm h).ident

theorem applyOp_ident (op : Op) (s s1 : State) (h : applyOp op s = some s1) :
    s.self.buffer_groups.map BufferGroup.ident <+: s1.self.buffer_groups.map BufferGroup.ident := by
  cases op with
  | SetMesh m => cases h; exact List.prefix_refl _
  | SetShader m => cases h; exact List.prefix_refl _
  | UpdateBufferGroups => exact UpdateBufferGroups_ident s s1 h
  | Initialize properties =>
    simp only [applyOp] at h
    cases hmesh : s.registry.GetMesh (propertyNames properties).1 with
    | none =>
      rw [Initialize_missing_mesh_eq properties s hmesh] at h
      cases h
      exact List.prefix_refl _
    | some m =>
      cases hshader : s.registry.GetShader (propertyNames properties).2 with
      | none =>
        rw [Initialize_missing_shader_eq properties s m hmesh hshader] at h
        cases h
        exact List.prefix_refl _
      | some sh =>
        rw [Initialize_resolved_eq properties s m sh hmesh hshader] at h
        cases hu : UpdateBufferGroups (SetShader (some sh) (SetMesh (some m) s)) with
        | none => rw [hu] at h; cases h
        | some s2 =>
          rw [hu] at h
          cases h
          exact UpdateBufferGroups_ident (SetShader (some sh) (SetMesh (some m) s)) s2 hu

/-- C4, the claim as stated fails: once a mesh with fewer groups is bound, the
Renderable holds more buffer groups (2) than its current mesh has groups (1). -/
theorem buffer_groups_exceed_group_count :
    (run [.SetMesh (some quadMesh), .UpdateBufferGroups, .SetMesh (some smallMesh)]
      sampleState).map (fun s => (s.self.buffer_groups.length, boundGroupCount s)) =
        some (2, 1) := by
  decide

/-- C4, amended: along any sequence of `Initialize`, `SetMesh`, `SetShader` and
`UpdateBufferGroups` calls that return, the buffer groups held before are still held
afterwards, at the same positions and with the same identity (so none is removed or
moved), and a further `UpdateBufferGroups` leaves as many buffer groups as the larger
of their number before it and the group count of the bound mesh. -/
theorem run_keeps_buffer_groups (ops : List Op) (s s1 : State) (h : run ops s = some s1) :
    s.self.buffer_groups.map BufferGroup.ident <+: s1.self.buffer_groups.map BufferGroup.ident ∧
    s.self.buffer_groups.length ≤ s1.self.buffer_groups.length ∧
    ∀ m s2, s1.self.mesh = some m → UpdateBufferGroups s1 = some s2 →
      s2.self.buffer_groups.length = max s1.self.buffer_groups.length m.GetMeshGroupCount := by
  have hp : s.self.buffer_groups.map BufferGroup.ident <+:
      s1.self.buffer_groups.map BufferGroup.ident := by
    induction ops generalizing s with
    | nil => cases h; exact List.prefix_refl _
    | cons op rest ih =>
      simp only [run] at h
      cases ho : applyOp op s with
      | none => rw [ho] at h; cases h
      | some sm =>
        rw [ho] at h
        exact (applyOp_ident op s sm ho).trans (ih sm h)
  refine ⟨hp, ?_, ?_⟩
  · have := hp.length_le
    simpa using this
  · intro m s2 hm hu
    exact (UpdateBufferGroups_inv s1 s2 m hm hu).len

theorem run_keeps_buffer_groups_witness :
    ∃ s1, run [.Initialize [⟨"mesh", "quad"⟩, ⟨"shader", "basic"⟩], .SetMesh (some smallMesh),
        .UpdateBufferGroups] sampleState = some s1 ∧
      sampleState.self.buffer_groups.map BufferGroup.ident <+:
        s1.self.buffer_groups.map BufferGroup.ident ∧
      sampleState.self.buffer_groups.length ≤ s1.self.buffer_groups.length ∧
      ∀ m s2, s1.self.mesh = some m → UpdateBufferGroups s1 = some s2 →
        s2.self.buffer_groups.length =
          max s1.self.buffer_groups.length m.GetMeshGroupCount := by
  cases h : run [.Initialize [⟨"mesh", "quad"⟩, ⟨"shader", "basic"⟩],
      .SetMesh (some smallMesh), .UpdateBufferGroups] sampleState with
  | none => exact absurd h (by decide)
  | some s1 => exact ⟨s1, rfl, run_keeps_buffer_groups _ sampleState s1 h⟩

/-- C10: when every group reference locks, `k + 1` consecutive calls of
`UpdateBufferGroups` on an unchanged mesh leave in buffer group `i` the textures it held
at the start followed by `k + 1` copies of the textures the names of mesh group `i`
resolve to (nothing is cleared), that is `(k + 1) * r` more entries for `r` resolving
names, while the identity and handles of the buffer groups and their index counts are
those left by the first call. -/
theorem UpdateBufferGroups_repeats_textures (s : State) (m : Mesh) (k : Nat)
    (hm : s.self.mesh = some m) (hl : m.live = true) :
    ∃ s1 sk, UpdateBufferGroups s = some s1 ∧ repeatUpdate (k + 1) s = some sk ∧
      sk.self.buffer_groups.map BufferGroup.ident =
        s1.self.buffer_groups.map BufferGroup.ident ∧
      ∀ i g, m.GetMeshGroup i = some g →
        texturesAt s1 i = texturesAt s i ++ g.textures.filterMap s1.registry.GetTexture ∧
        texturesAt sk i = texturesAt s i ++
          (List.replicate (k + 1) (g.textures.filterMap s1.registry.GetTexture)).flatten ∧
        (texturesAt sk i).length = (texturesAt s i).length +
          (k + 1) * (g.textures.filter s.registry.resolves).length ∧
        (s.self.buffer_groups.length ≤ i → (texturesAt sk i).length =
          (k + 1) * (g.textures.filter s.registry.resolves).length) ∧
        indexCountAt sk i = indexCountAt s1 i := by
  obtain ⟨s1, h1, inv1⟩ := UpdateBufferGroups_spec s m hm hl
  have key : ∃ sk, repeatUpdate (k + 1) s = some sk ∧ sk.self.mesh = some m ∧
      RegExt s1.registry sk.registry ∧
      sk.self.buffer_groups.map BufferGroup.ident =
        s1.self.buffer_groups.map BufferGroup.ident ∧
      ∀ i g, m.GetMeshGroup i = some g →
        texturesAt sk i = texturesAt s i ++
          (List.replicate (k + 1) (g.textures.filterMap s1.registry.GetTexture)).flatten ∧
        indexCountAt sk i = indexCountAt s1 i := by
    induction k with
    | zero =>
      refine ⟨s1, by simp only [repeatUpdate, Option.bind, h1], inv1.mesh.trans hm,
        RegExt.refl _, rfl, ?_⟩
      intro i g hg
      refine ⟨?_, rfl⟩
      rw [inv1.tex i (Mesh.GetMeshGroup_lt hg) g hg]
      simp
    | succ k ih =>
      obtain ⟨sk, hk, hmk, hext, hid, hgroups⟩ := ih
      obtain ⟨sn, hn, invn⟩ := UpdateBufferGroups_spec sk m hmk hl
      have hlen_k : sk.self.buffer_groups.length = s1.self.buffer_groups.length := by
        have := congrArg List.length hid
        simpa using this
      have hle : m.GetMeshGroupCount ≤ sk.self.buffer_groups.length := by
        rw [hlen_k]; exact inv1.le_length
      have hlen_n : sn.self.buffer_groups.length = sk.self.buffer_groups.length := by
        rw [invn.len]; exact max_eq_left hle
      refine ⟨sn, ?_, invn.mesh.trans hmk, hext.trans invn.ext, ?_, ?_⟩
      · rw [repeatUpdate, hk]; exact hn
      · rw [← hid]
        exact (invn.ident.eq_of_length (by simp [hlen_n])).symm
      · intro i g hg
        have hi := Mesh.GetMeshGroup_lt hg
        obtain ⟨htk, hck⟩ := hgroups i g hg
        constructor
        · rw [invn.tex i hi g hg, htk,
            (hext.trans invn.ext).filterMap_eq (inv1.settled i hi g hg),
            List.replicate_succ' (k + 1), List.flatten_append]
          simp
        · rw [invn.count i hi g hg, hck, inv1.count i hi g hg]
          split <;> simp_all
  obtain ⟨sk, hk, _, _, hid, hgroups⟩ := key
  refine ⟨s1, sk, h1, hk, hid, ?_⟩
  intro i g hg
  have hi := Mesh.GetMeshGroup_lt hg
  obtain ⟨htk, hck⟩ := hgroups i g hg
  have hlen : (texturesAt sk i).length = (texturesAt s i).length +
      (k + 1) * (g.textures.filter s.registry.resolves).length := by
    rw [htk, List.length_append, List.length_flatten, List.map_replicate, List.sum_replicate,
      length_filterMap_eq_filter _ (inv1.isSome_eq_resolves hi hg)]
    simp
  refine ⟨inv1.tex i hi g hg, htk, hlen, ?_, hck⟩
  intro hle
  rw [hlen]
  simp [texturesAt, List.getElem?_eq_none hle]

theorem UpdateBufferGroups_repeats_textures_witness :
    ∃ s1 sk, UpdateBufferGroups (SetMesh (some decalMesh) sampleState) = some s1 ∧
      repeatUpdate (2 + 1) (SetMesh (some decalMesh) sampleState) = some sk ∧
      sk.self.buffer_groups.map BufferGroup.ident =
        s1.self.buffer_groups.map BufferGroup.ident ∧
      ∀ i g, decalMesh.GetMeshGroup i = some g →
        texturesAt s1 i = texturesAt (SetMesh (some decalMesh) sampleState) i ++
          g.textures.filterMap s1.registry.GetTexture ∧
        texturesAt sk i = texturesAt (SetMesh (some decalMesh) sampleState) i ++
          (List.replicate (2 + 1) (g.textures.filterMap s1.registry.GetTexture)).flatten ∧
        (texturesAt sk i).length =
          (texturesAt (SetMesh (some decalMesh) sampleState) i).length +
            (2 + 1) * (g.textures.filter
              (SetMesh (some decalMesh) sampleState).registry.resolves).length ∧
        ((SetMesh (some decalMesh) sampleState).self.buffer_groups.length ≤ i →
          (texturesAt sk i).length = (2 + 1) * (g.textures.filter
            (SetMesh (some decalMesh) sampleState).registry.resolves).length) ∧
        indexCountAt sk i = indexCountAt s1 i :=
  UpdateBufferGroups_repeats_textures (SetMesh (some decalMesh) sampleState) decalMesh 2 rfl
    (by decide)

/-- C5: the second group of the mesh names the texture `"stone"`, which is registered,
yet `UpdateBufferGroups` appends no texture for it: the first group reference has
expired, the call dereferences the empty pointer on line 38 and does not return. -/
theorem registered_texture_lost_to_expired_group :
    expiredMesh.GetMeshGroup 1 = some quadGroup ∧ quadGroup.textures = ["stone"] ∧
    sampleRegistry.GetTexture "stone" = some { addr := 100, pixels := { data := [1] } } ∧
    expiredMesh.GetMeshGroup 0 = none ∧
    UpdateBufferGroups (SetMesh (some expiredMesh) sampleState) = none := by
  decide

/-- C6: the first group has a name that fails both lookup and creation, and the call
does not complete and go on to the remaining groups: the second group reference has
expired, so `UpdateBufferGroups` dereferences the empty pointer on line 38 and does
not return. -/
theorem unresolved_texture_then_expired_group_faults :
    decalExpiredMesh.GetMeshGroup 0 = some decalGroup ∧ "missing" ∈ decalGroup.textures ∧
    sampleRegistry.resolves "missing" = false ∧
    decalExpiredMesh.GetMeshGroup 1 = none ∧
    UpdateBufferGroups (SetMesh (some decalExpiredMesh) sampleState) = none := by
  decide

/-- C8: the second group of the mesh has 6 indices, yet `UpdateBufferGroups` neither
uploads them nor sets an index count: the first group reference has expired, the call
dereferences the empty pointer on line 38 and does not return. -/
theorem index_upload_lost_to_expired_group :
    expiredMesh.GetMeshGroup 1 = some quadGroup ∧ quadGroup.indicies.length = 6 ∧
    expiredMesh.GetMeshGroup 0 = none ∧
    UpdateBufferGroups (SetMesh (some expiredMesh) sampleState) = none := by
  decide

end trillek
